import Mathlib

/-!
Verification development for the engine262 repository (array intrinsics,
static semantics, and the CLI host shell).

The JavaScript runtime fragment that the array methods of
`src/intrinsics/ArrayPrototype.mjs` rely on is embedded shallowly:
values are an inductive type, the heap is a list of objects, and every
abstract operation is a computable function in a state-plus-completion
monad.  Host-visible behaviour (property getters, `valueOf` coercions,
function bodies) is defunctionalized into the small `HostProg` language so
that every definition stays executable and decidable.
-/

namespace E262

/-- JavaScript numbers, restricted to the integral values, infinities and
NaN that the array algorithms manipulate.  (Fractional doubles are never
produced by the operations embedded here.) -/
inductive JSNum where
  | int (i : Int)
  | posInf
  | negInf
  | nan
deriving DecidableEq, Repr

/-- The tagged universe of language values (spec section 3).  Engine-created
error objects are represented structurally by `errorObj kind message`; they
count as objects for `Type`. -/
inductive JSValue where
  | undef
  | null
  | bool (b : Bool)
  | num (n : JSNum)
  | str (s : String)
  | obj (ref : Nat)
  | errorObj (kind : String) (message : String)
deriving DecidableEq, Repr

/-- Defunctionalized host-side programs: the bodies of user-supplied
getters, `valueOf` methods and callback functions.  A host program can
return a value, produce a throw completion, or perform a raw property
store (an observable side effect) and continue. -/
inductive HostProg where
  | ret (v : JSValue)
  | throwV (v : JSValue)
  | store (ref : Nat) (key : String) (v : JSValue) (k : HostProg)
deriving DecidableEq, Repr

/-- Property descriptors: data properties carry a writability bit, accessor
properties carry a defunctionalized getter.  (Enumerability and
configurability are not consulted by any embedded algorithm; setters are
not modelled, so `Set` on an accessor property throws when the throw flag
is set.) -/
inductive PropDesc where
  | data (v : JSValue) (writable : Bool)
  | accessor (getter : HostProg)
deriving DecidableEq, Repr

/-- Heap objects: an insertion-ordered own-property store, the
array-exotic flag, an optional `[[Call]]` body and an optional `valueOf`
body used by `ToNumber` on objects. -/
structure JSObject where
  props : List (String × PropDesc)
  isArray : Bool
  callBody : Option HostProg
  valueOfBody : Option HostProg
deriving DecidableEq, Repr

/-- Observable events logged by the engine: function invocations and
`CreateDataProperty` definitions (the writes the overflow claims are
about). -/
inductive Ev where
  | call (ref : Nat)
  | defProp (ref : Nat) (key : String)
deriving DecidableEq, Repr

/-- Machine state: the heap plus the event log (newest event first). -/
structure St where
  heap : List JSObject
  events : List Ev
deriving DecidableEq, Repr

/-- Completions, restricted to the two kinds the embedded operations
produce: normal (carrying a value) and throw (carrying the thrown
value). -/
inductive Comp (α : Type) where
  | ok (a : α)
  | err (v : JSValue)
deriving DecidableEq, Repr

/-- The completion-threading state monad: every abstract operation takes a
state and returns a completion together with the successor state. -/
abbrev EngM (α : Type) := St → Comp α × St

def bindE {α β : Type} (m : EngM α) (f : α → EngM β) : EngM β := fun s =>
  match m s with
  | (Comp.ok a, s') => f a s'
  | (Comp.err e, s') => (Comp.err e, s')

def pureE {α : Type} (a : α) : EngM α := fun s => (Comp.ok a, s)

instance : Monad EngM where
  pure := pureE
  bind := bindE

/-- Throw a completion carrying `v`. -/
def throwE {α : Type} (v : JSValue) : EngM α := fun s => (Comp.err v, s)

/-- `surroundingAgent.Throw('TypeError', msg)` from the source. -/
def throwTE {α : Type} (m : String) : EngM α := throwE (JSValue.errorObj "TypeError" m)

/-- Read a pure function of the state. -/
def readS {α : Type} (f : St → α) : EngM α := fun s => (Comp.ok (f s), s)

def emptyObj : JSObject := { props := [], isArray := false, callBody := none, valueOfBody := none }

/-- The object stored at heap index `r` (dangling references behave as an
empty ordinary object). -/
def objAt (hp : List JSObject) (r : Nat) : JSObject := (hp.get? r).getD emptyObj

/-- Replace-or-append update of an insertion-ordered property list. -/
def updProp : List (String × PropDesc) → String → PropDesc → List (String × PropDesc)
  | [], k, d => [(k, d)]
  | (k', d') :: rest, k, d =>
      if k' = k then (k, d) :: rest else (k', d') :: updProp rest k d

/-- Remove a key from a property list. -/
def delPropL (ps : List (String × PropDesc)) (k : String) : List (String × PropDesc) :=
  ps.filter (fun p => p.1 ≠ k)

/-- Canonical numeric key for index `i` (`X(ToString(new Value(i)))` on the
integers the algorithms produce). -/
def intKey (i : Int) : String := toString i

/-- Decimal parse of a character list (structural, so the kernel can
evaluate it). -/
def digitsToNat : List Char → Nat → Option Nat
  | [], acc => some acc
  | c :: rest, acc =>
      if c.isDigit then digitsToNat rest (acc * 10 + (c.toNat - 48)) else none

/-- An array-index key, when the key is the decimal notation of a natural
number. -/
def keyToIndex (k : String) : Option Nat :=
  match k.data with
  | [] => none
  | l => digitsToNat l 0

/-- 2^53 - 1, the largest safe array length. -/
def maxSafe : Int := 2 ^ 53 - 1

/-- Run a defunctionalized host program. -/
def runHost : HostProg → EngM JSValue
  | HostProg.ret v => pureE v
  | HostProg.throwV v => throwE v
  | HostProg.store r k v p => fun s =>
      let o := objAt s.heap r
      let o2 := { o with props := updProp o.props k (PropDesc.data v true) }
      runHost p { s with heap := s.heap.set r o2 }

/-- Allocate a fresh object, returning its reference. -/
def allocM (o : JSObject) : EngM Nat := fun s =>
  (Comp.ok s.heap.length, { s with heap := s.heap ++ [o] })

/-- `Get(O, P)` restricted to own properties: missing properties read as
`undefined`, data properties return their value, accessor properties run
their getter.  Modelled from the spec: the prototype-chain walk of
`OrdinaryGet` is omitted because every receiver in the embedded claims
carries its consulted properties as own properties. -/
def GetM (r : Nat) (k : String) : EngM JSValue := fun s =>
  match (objAt s.heap r).props.lookup k with
  | none => (Comp.ok JSValue.undef, s)
  | some (PropDesc.data v _) => (Comp.ok v, s)
  | some (PropDesc.accessor g) => runHost g s

/-- `Get` lifted to a value known to be an object reference. -/
def GetVal (v : JSValue) (k : String) : EngM JSValue :=
  match v with
  | JSValue.obj r => GetM r k
  | _ => throwTE "Get on non-object"

/-- `HasProperty(O, P)` on own properties. -/
def HasPropertyM (r : Nat) (k : String) : EngM Bool :=
  readS (fun s => ((objAt s.heap r).props.lookup k).isSome)

def HasPropertyV (v : JSValue) (k : String) : EngM Bool :=
  match v with
  | JSValue.obj r => HasPropertyM r k
  | _ => pureE false

/-- The numeric value of an array's stored `length` data property (used by
the array-exotic index bookkeeping). -/
def lengthIntOf (o : JSObject) : Int :=
  match o.props.lookup "length" with
  | some (PropDesc.data (JSValue.num (JSNum.int i)) _) => i
  | _ => 0

/-- Whether an array's `length` data property is writable (absent length
counts as writable). -/
def lengthWritable (o : JSObject) : Bool :=
  match o.props.lookup "length" with
  | some (PropDesc.data _ w) => w
  | some (PropDesc.accessor _) => false
  | none => true

/-- `CreateDataPropertyOrThrow(O, P, V)`.  Modelled from the spec for the
array-exotic `[[DefineOwnProperty]]`: defining an integer-index property at
or beyond the current `length` of an array raises `length` to index + 1,
and fails with a TypeError when `length` is not writable.  The definition
event is logged. -/
def CreateDataPropertyOrThrowM (r : Nat) (k : String) (v : JSValue) : EngM Unit := fun s =>
  let o := objAt s.heap r
  let base := updProp o.props k (PropDesc.data v true)
  match (if o.isArray then keyToIndex k else none) with
  | some i =>
      if (i : Int) ≥ lengthIntOf o then
        if lengthWritable o then
          (Comp.ok (),
           { heap := s.heap.set r
               ({ o with props := updProp base "length" (PropDesc.data (JSValue.num (JSNum.int ((i : Int) + 1))) true) }),
             events := Ev.defProp r k :: s.events })
        else (Comp.err (JSValue.errorObj "TypeError" "cannot define index past non-writable length"), s)
      else
        (Comp.ok (), { heap := s.heap.set r ({ o with props := base }),
                       events := Ev.defProp r k :: s.events })
  | none =>
      (Comp.ok (), { heap := s.heap.set r ({ o with props := base }),
                     events := Ev.defProp r k :: s.events })

/-- `DeletePropertyOrThrow(O, P)`.  Modelled from the spec with every
embedded property configurable, so deletion always succeeds. -/
def DeletePropertyOrThrowM (r : Nat) (k : String) : EngM Unit := fun s =>
  let o := objAt s.heap r
  (Comp.ok (), { s with heap := s.heap.set r ({ o with props := delPropL o.props k }) })

/-- Delete every integer-index own property whose index is at least `L`
(the array-exotic `length` truncation). -/
def truncProps (ps : List (String × PropDesc)) (L : Int) : List (String × PropDesc) :=
  ps.filter (fun p =>
    match keyToIndex p.1 with
    | some i => (i : Int) < L
    | none => true)

/-- `Set(O, P, V, Throw)`.  Modelled from the spec: data properties respect
their writability (a failed write throws a TypeError exactly when the
throw flag is set), accessor properties have no modelled setter, and the
array-exotic `length` update truncates integer-index properties at or
beyond the new length.  A non-integral or negative new array length is a
RangeError. -/
def SetM (r : Nat) (k : String) (v : JSValue) (thrw : Bool) : EngM Unit := fun s =>
  let o := objAt s.heap r
  if o.isArray ∧ k = "length" then
    if lengthWritable o then
      match v with
      | JSValue.num (JSNum.int L) =>
          if L ≥ 0 then
            let o2 := { o with props := updProp (truncProps o.props L) "length" (PropDesc.data (JSValue.num (JSNum.int L)) (lengthWritable o)) }
            (Comp.ok (), { s with heap := s.heap.set r o2 })
          else (Comp.err (JSValue.errorObj "RangeError" "Invalid array length"), s)
      | _ => (Comp.err (JSValue.errorObj "RangeError" "Invalid array length"), s)
    else
      if thrw then (Comp.err (JSValue.errorObj "TypeError" "Cannot set property length"), s)
      else (Comp.ok (), s)
  else
    match o.props.lookup k with
    | some (PropDesc.data _ w) =>
        if w then
          (Comp.ok (), { s with heap := s.heap.set r ({ o with props := updProp o.props k (PropDesc.data v w) }) })
        else
          if thrw then (Comp.err (JSValue.errorObj "TypeError" ("Cannot set property " ++ k)), s)
          else (Comp.ok (), s)
    | some (PropDesc.accessor _) =>
        if thrw then (Comp.err (JSValue.errorObj "TypeError" ("Cannot set property " ++ k)), s)
        else (Comp.ok (), s)
    | none =>
        if o.isArray ∧ (keyToIndex k).isSome then
          match keyToIndex k with
          | some i =>
              if (i : Int) ≥ lengthIntOf o then
                if lengthWritable o then
                  let o2 := { o with props := updProp (updProp o.props k (PropDesc.data v true)) "length" (PropDesc.data (JSValue.num (JSNum.int ((i : Int) + 1))) true) }
                  (Comp.ok (), { s with heap := s.heap.set r o2 })
                else
                  if thrw then (Comp.err (JSValue.errorObj "TypeError" ("Cannot add property " ++ k)), s)
                  else (Comp.ok (), s)
              else
                (Comp.ok (), { s with heap := s.heap.set r ({ o with props := updProp o.props k (PropDesc.data v true) }) })
          | none => (Comp.ok (), s)
        else
          (Comp.ok (), { s with heap := s.heap.set r ({ o with props := updProp o.props k (PropDesc.data v true) }) })

/-- `ToObject`.  Modelled from the spec: `undefined` and `null` throw a
TypeError, objects are returned unchanged, and other primitives allocate a
fresh wrapper object (whose internals no embedded claim consults). -/
def ToObjectM : JSValue → EngM Nat
  | JSValue.undef => throwTE "Cannot convert undefined to object"
  | JSValue.null => throwTE "Cannot convert null to object"
  | JSValue.obj r => pureE r
  | _ => allocM emptyObj

/-- Numeric coercion of primitives.  Modelled from the spec coercion
ladder, with string parsing restricted to decimal naturals. -/
def toNumPrim : JSValue → JSNum
  | JSValue.undef => JSNum.nan
  | JSValue.null => JSNum.int 0
  | JSValue.bool b => JSNum.int (if b then 1 else 0)
  | JSValue.num n => n
  | JSValue.str s => if s = "" then JSNum.int 0 else
      match keyToIndex s with
      | some n => JSNum.int (n : Int)
      | none => JSNum.nan
  | JSValue.errorObj _ _ => JSNum.nan
  | JSValue.obj _ => JSNum.nan

/-- `ToNumber`.  Modelled from the spec: objects coerce through their
(defunctionalized) `valueOf`; an object without one behaves like the
default `toString` fallback and coerces to NaN; a `valueOf` returning an
object is a TypeError. -/
def ToNumberM (v : JSValue) : EngM JSNum :=
  match v with
  | JSValue.obj r => fun s =>
      match (objAt s.heap r).valueOfBody with
      | none => (Comp.ok JSNum.nan, s)
      | some p =>
          match runHost p s with
          | (Comp.ok (JSValue.obj _), s') =>
              (Comp.err (JSValue.errorObj "TypeError" "Cannot convert object to primitive value"), s')
          | (Comp.ok w, s') => (Comp.ok (toNumPrim w), s')
          | (Comp.err e, s') => (Comp.err e, s')
  | w => pureE (toNumPrim w)

/-- Integral truncation on the embedded number type (NaN becomes 0, the
infinities survive). -/
def jsTrunc : JSNum → JSNum
  | JSNum.nan => JSNum.int 0
  | x => x

/-- `ToInteger`.  Modelled from the spec coercion ladder. -/
def ToIntegerM (v : JSValue) : EngM JSNum := bindE (ToNumberM v) (fun n => pureE (jsTrunc n))

/-- Clamp an integral number into `[0, 2^53 - 1]`. -/
def jsLenClamp : JSNum → Int
  | JSNum.int i => max 0 (min i maxSafe)
  | JSNum.posInf => maxSafe
  | JSNum.negInf => 0
  | JSNum.nan => 0

/-- `ToLength`.  Modelled from the spec: `ToInteger` clamped into
`[0, 2^53 - 1]`. -/
def ToLengthM (v : JSValue) : EngM Int := bindE (ToIntegerM v) (fun n => pureE (jsLenClamp n))

/-- `ToBoolean` (pure). -/
def toBoolean : JSValue → Bool
  | JSValue.undef => false
  | JSValue.null => false
  | JSValue.bool b => b
  | JSValue.num n =>
      match n with
      | JSNum.int i => decide (i ≠ 0)
      | JSNum.nan => false
      | _ => true
  | JSValue.str s => decide (s ≠ "")
  | JSValue.obj _ => true
  | JSValue.errorObj _ _ => true

/-- `IsCallable` as a pure state observation. -/
def isCallableSt (s : St) (v : JSValue) : Bool :=
  match v with
  | JSValue.obj r => (objAt s.heap r).callBody.isSome
  | _ => false

def IsCallableM (v : JSValue) : EngM Bool := readS (fun s => isCallableSt s v)

/-- `IsArray` as a pure state observation (no proxies are modelled, so it
never throws). -/
def isArraySt (s : St) (v : JSValue) : Bool :=
  match v with
  | JSValue.obj r => (objAt s.heap r).isArray
  | _ => false

def IsArrayM (v : JSValue) : EngM Bool := readS (fun s => isArraySt s v)

/-- `Call(F, V, args)`.  Modelled from the spec: a non-callable value is a
TypeError; a callable object logs a call event and runs its
defunctionalized body (which ignores the this-value and argument list). -/
def CallM (f _thisArg : JSValue) (_args : List JSValue) : EngM JSValue :=
  match f with
  | JSValue.obj r => fun s =>
      match (objAt s.heap r).callBody with
      | some p => runHost p { s with events := Ev.call r :: s.events }
      | none => (Comp.err (JSValue.errorObj "TypeError" "not a function"), s)
  | _ => throwTE "not a function"

/-- The key standing for the well-known symbol `@@isConcatSpreadable`
(symbols are modelled as distinguished string keys). -/
def spreadableKey : String := "@@isConcatSpreadable"

/-- `IsConcatSpreadable`.  Modelled from the spec: non-objects are not
spreadable; otherwise the `@@isConcatSpreadable` property decides, falling
back to `IsArray` when it is `undefined`. -/
def IsConcatSpreadableM (v : JSValue) : EngM Bool :=
  match v with
  | JSValue.obj r =>
      bindE (GetM r spreadableKey) (fun sp =>
        if sp = JSValue.undef then IsArrayM v else pureE (toBoolean sp))
  | _ => pureE false

/-- A fresh array object with the given stored length. -/
def newArrayObj (len : Int) : JSObject :=
  { props := [("length", PropDesc.data (JSValue.num (JSNum.int len)) true)],
    isArray := true, callBody := none, valueOfBody := none }

/-- `ArraySpeciesCreate(O, len)`.  Modelled from the spec default path
(no `constructor` / `@@species` machinery is present in the sources): a
fresh array of the requested length is allocated. -/
def ArraySpeciesCreateM (_O : Nat) (len : Int) : EngM Nat := allocM (newArrayObj len)

/-- Relative-index arithmetic shared by copyWithin, fill, slice and splice:
`rel < 0 ? max(len + rel, 0) : min(rel, len)` on the embedded numbers
(infinite `rel` saturates exactly as the IEEE comparisons in the source
do). -/
def clampRel (rel : JSNum) (len : Int) : Int :=
  match rel with
  | JSNum.negInf => 0
  | JSNum.posInf => len
  | JSNum.nan => 0
  | JSNum.int i => if i < 0 then max (len + i) 0 else min i len

/-- `depth > 0` on the embedded numbers. -/
def jsGtZero : JSNum → Bool
  | JSNum.int i => decide (i > 0)
  | JSNum.posInf => true
  | JSNum.negInf => false
  | JSNum.nan => false

/-- `depth - 1` on the embedded numbers. -/
def jsSub1 : JSNum → JSNum
  | JSNum.int i => JSNum.int (i - 1)
  | x => x

/-- Inner loop of `ArrayProto_concat` over the indices of one spreadable
element (`while (k < len)`, source lines 52-62); `rem` counts the
remaining iterations `len - k`. -/
def concatInnerLoop (A : Nat) (E : JSValue) : Nat → Int → Int → EngM Int
  | 0, _, n => pureE n
  | rem + 1, k, n => do
      let P := intKey k
      let ex ← HasPropertyV E P
      if ex then do
        let subElement ← GetVal E P
        CreateDataPropertyOrThrowM A (intKey n) subElement
        concatInnerLoop A E rem (k + 1) (n + 1)
      else
        concatInnerLoop A E rem (k + 1) (n + 1)

/-- Outer loop of `ArrayProto_concat` over `items = [O, ...args]`
(source lines 42-71). -/
def concatOuterLoop (A : Nat) : List JSValue → Int → EngM Int
  | [], n => pureE n
  | E :: rest, n => do
      let spreadable ← IsConcatSpreadableM E
      if spreadable then do
        let lenProp ← GetVal E "length"
        let len ← ToLengthM lenProp
        if n + len > maxSafe then throwTE "ArrayPastSafeLength"
        else do
          let n2 ← concatInnerLoop A E len.toNat 0 n
          concatOuterLoop A rest n2
      else
        if n ≥ maxSafe then throwTE "ArrayPastSafeLength"
        else do
          CreateDataPropertyOrThrowM A (intKey n) E
          concatOuterLoop A rest (n + 1)

/-- 22.1.3.1 Array.prototype.concat (source lines 37-74). -/
def ArrayProto_concat (args : List JSValue) (thisValue : JSValue) : EngM JSValue := do
  let O ← ToObjectM thisValue
  let A ← ArraySpeciesCreateM O 0
  let n ← concatOuterLoop A (JSValue.obj O :: args) 0
  SetM A "length" (JSValue.num (JSNum.int n)) true
  pureE (JSValue.obj A)

/-- Copy loop of `ArrayProto_copyWithin` (`while (count > 0)`, source
lines 116-129); `c` counts the remaining iterations. -/
def copyWithinLoop (O : Nat) (direction : Int) : Nat → Int → Int → EngM Unit
  | 0, _, _ => pureE ()
  | c + 1, fromI, toI => do
      let fromKey := intKey fromI
      let toKey := intKey toI
      let fromPresent ← HasPropertyM O fromKey
      if fromPresent then do
        let fromVal ← GetM O fromKey
        SetM O toKey fromVal true
        copyWithinLoop O direction c (fromI + direction) (toI + direction)
      else do
        DeletePropertyOrThrowM O toKey
        copyWithinLoop O direction c (fromI + direction) (toI + direction)

/-- 22.1.3.3 Array.prototype.copyWithin (source lines 77-131). -/
def ArrayProto_copyWithin (args : List JSValue) (thisValue : JSValue) : EngM JSValue := do
  let target := args.getD 0 JSValue.undef
  let start := args.getD 1 JSValue.undef
  let endV := args.getD 2 JSValue.undef
  let O ← ToObjectM thisValue
  let lenProp ← GetM O "length"
  let len ← ToLengthM lenProp
  let relativeTarget ← ToIntegerM target
  let toI := clampRel relativeTarget len
  let relativeStart ← ToIntegerM start
  let fromI := clampRel relativeStart len
  let relativeEnd ← if endV = JSValue.undef then pureE (JSNum.int len) else ToIntegerM endV
  let final := clampRel relativeEnd len
  let count := min (final - fromI) (len - toI)
  if fromI < toI ∧ toI < fromI + count then
    copyWithinLoop O (-1) count.toNat (fromI + count - 1) (toI + count - 1)
  else
    copyWithinLoop O 1 count.toNat fromI toI
  pureE (JSValue.obj O)

/-- Fill loop of `ArrayProto_fill` (`while (k < final)`, source lines
163-167). -/
def fillLoop (O : Nat) (value : JSValue) : Nat → Int → EngM Unit
  | 0, _ => pureE ()
  | rem + 1, k => do
      let Pk := intKey k
      SetM O Pk value true
      fillLoop O value rem (k + 1)

/-- 22.1.3.6 Array.prototype.fill (source lines 140-169). -/
def ArrayProto_fill (args : List JSValue) (thisValue : JSValue) : EngM JSValue := do
  let value := args.getD 0 JSValue.undef
  let start := args.getD 1 JSValue.undef
  let endV := args.getD 2 JSValue.undef
  let O ← ToObjectM thisValue
  let lenProp ← GetM O "length"
  let len ← ToLengthM lenProp
  let relativeStart ← ToIntegerM start
  let k := clampRel relativeStart len
  let relativeEnd ← if endV = JSValue.undef then pureE (JSNum.int len) else ToIntegerM endV
  let final := clampRel relativeEnd len
  fillLoop O value (final - k).toNat k
  pureE (JSValue.obj O)

/-- Selection loop of `ArrayProto_filter` (`while (k < len)`, source lines
183-195). -/
def filterLoop (O A : Nat) (callbackfn T : JSValue) : Nat → Int → Int → EngM Unit
  | 0, _, _ => pureE ()
  | rem + 1, k, toI => do
      let Pk := intKey k
      let kPresent ← HasPropertyM O Pk
      if kPresent then do
        let kValue ← GetM O Pk
        let r ← CallM callbackfn T [kValue, JSValue.num (JSNum.int k), JSValue.obj O]
        if toBoolean r then do
          CreateDataPropertyOrThrowM A (intKey toI) kValue
          filterLoop O A callbackfn T rem (k + 1) (toI + 1)
        else
          filterLoop O A callbackfn T rem (k + 1) toI
      else
        filterLoop O A callbackfn T rem (k + 1) toI

/-- 22.1.3.7 Array.prototype.filter (source lines 172-197). -/
def ArrayProto_filter (args : List JSValue) (thisValue : JSValue) : EngM JSValue := do
  let callbackfn := args.getD 0 JSValue.undef
  let O ← ToObjectM thisValue
  let lenProp ← GetM O "length"
  let len ← ToLengthM lenProp
  let callable ← IsCallableM callbackfn
  if callable = false then throwTE "NotAFunction"
  else do
    let T := args.getD 1 JSValue.undef
    let A ← ArraySpeciesCreateM O 0
    filterLoop O A callbackfn T len.toNat 0 0
    pureE (JSValue.obj A)

/-- The `while (sourceIndex < sourceLen)` loop of `FlattenIntoArray`
(source lines 203-229): `rem` counts the remaining source indices and
`descend` performs the recursive call of line 219 (it receives the
element's coerced length, the element reference, the current target index
and the decremented depth). -/
def flatLoop (target : Nat) (descend : Nat → Nat → Int → JSNum → EngM (Option Int))
    (mapper : Option (JSValue × JSValue)) :
    Nat → Nat → Int → Int → JSNum → EngM (Option Int)
  | 0, _, _, targetIndex, _ => pureE (some targetIndex)
  | rem + 1, source, sourceIndex, targetIndex, depth => do
      let P := intKey sourceIndex
      let ex ← HasPropertyM source P
      if ex then do
        let element0 ← GetM source P
        let element ← match mapper with
          | some (f, T) => CallM f T [element0, JSValue.num (JSNum.int sourceIndex), JSValue.obj source]
          | none => pureE element0
        let shouldFlatten ← if jsGtZero depth then IsArrayM element else pureE false
        if shouldFlatten then
          match element with
          | JSValue.obj eref => do
            let lenProp ← GetM eref "length"
            let elementLen ← ToLengthM lenProp
            let r ← descend elementLen.toNat eref targetIndex (jsSub1 depth)
            match r with
            | none => pureE none
            | some targetIndex' =>
                flatLoop target descend mapper rem source (sourceIndex + 1) targetIndex' depth
          | _ => throwTE "IsArray on non-object"
        else
          if targetIndex ≥ maxSafe then throwTE ""
          else do
            CreateDataPropertyOrThrowM target (intKey targetIndex) element
            flatLoop target descend mapper rem source (sourceIndex + 1) (targetIndex + 1) depth
      else
        flatLoop target descend mapper rem source (sourceIndex + 1) targetIndex depth

/-- `FlattenIntoArray` (source lines 200-231), with an explicit recursion
budget `fuel` standing for the host call stack: a result of `none` means
the budget was exhausted on a recursive descent.  The recursive call of
line 219 passes no mapper, exactly as the source does. -/
def flattenGo (target : Nat) : Nat → Option (JSValue × JSValue) → Nat → Nat → Int → Int → JSNum → EngM (Option Int)
  | 0, mapper, rem, source, sourceIndex, targetIndex, depth =>
      flatLoop target (fun _ _ _ _ => pureE none) mapper rem source sourceIndex targetIndex depth
  | fuel + 1, mapper, rem, source, sourceIndex, targetIndex, depth =>
      flatLoop target (fun len eref ti d => flattenGo target fuel none len eref 0 ti d)
        mapper rem source sourceIndex targetIndex depth

/-- Array.prototype.flat (source lines 234-245), parameterised by the
recursion budget of `FlattenIntoArray`. -/
def ArrayProto_flat (fuel : Nat) (args : List JSValue) (thisValue : JSValue) : EngM (Option JSValue) := do
  let depth := args.getD 0 JSValue.undef
  let O ← ToObjectM thisValue
  let lenProp ← GetM O "length"
  let sourceLen ← ToLengthM lenProp
  let depthNum ← if depth = JSValue.undef then pureE (JSNum.int 1) else ToIntegerM depth
  let A ← ArraySpeciesCreateM O 0
  let r ← flattenGo A fuel none sourceLen.toNat O 0 0 depthNum
  match r with
  | none => pureE none
  | some _ => pureE (some (JSValue.obj A))

/-- Array.prototype.flatMap (source lines 248-264), parameterised by the
recursion budget of `FlattenIntoArray`. -/
def ArrayProto_flatMap (fuel : Nat) (args : List JSValue) (thisValue : JSValue) : EngM (Option JSValue) := do
  let mapperFunction := args.getD 0 JSValue.undef
  let O ← ToObjectM thisValue
  let lenProp ← GetM O "length"
  let sourceLen ← ToLengthM lenProp
  let callable ← IsCallableM mapperFunction
  if callable = false then throwTE ""
  else do
    let T := args.getD 1 JSValue.undef
    let A ← ArraySpeciesCreateM O 0
    let r ← flattenGo A fuel (some (mapperFunction, T)) sourceLen.toNat O 0 0 (JSNum.int 1)
    match r with
    | none => pureE none
    | some _ => pureE (some (JSValue.obj A))

/-- Mapping loop of `ArrayProto_map` (`while (k < len.numberValue())`,
source lines 283-292). -/
def mapLoop (O A : Nat) (callbackfn T : JSValue) : Nat → Int → EngM Unit
  | 0, _ => pureE ()
  | rem + 1, k => do
      let Pk := intKey k
      let kPresent ← HasPropertyM O Pk
      if kPresent then do
        let kValue ← GetM O Pk
        let mappedValue ← CallM callbackfn T [kValue, JSValue.num (JSNum.int k), JSValue.obj O]
        CreateDataPropertyOrThrowM A Pk mappedValue
        mapLoop O A callbackfn T rem (k + 1)
      else
        mapLoop O A callbackfn T rem (k + 1)

/-- 22.1.3.16 Array.prototype.map (source lines 273-294). -/
def ArrayProto_map (args : List JSValue) (thisValue : JSValue) : EngM JSValue := do
  let callbackfn := args.getD 0 JSValue.undef
  let O ← ToObjectM thisValue
  let lenProp ← GetM O "length"
  let len ← ToLengthM lenProp
  let callable ← IsCallableM callbackfn
  if callable = false then throwTE "callbackfn is not callable"
  else do
    let T := args.getD 1 JSValue.undef
    let A ← ArraySpeciesCreateM O len
    mapLoop O A callbackfn T len.toNat 0
    pureE (JSValue.obj A)

/-- 22.1.3.17 Array.prototype.pop (source lines 297-311). -/
def ArrayProto_pop (thisValue : JSValue) : EngM JSValue := do
  let O ← ToObjectM thisValue
  let lenProp ← GetM O "length"
  let len ← ToLengthM lenProp
  if len = 0 then do
    SetM O "length" (JSValue.num (JSNum.int 0)) true
    pureE JSValue.undef
  else do
    let newLen := len - 1
    let index := intKey newLen
    let element ← GetM O index
    DeletePropertyOrThrowM O index
    SetM O "length" (JSValue.num (JSNum.int newLen)) true
    pureE element

/-- Element loop of `ArrayProto_push` (`while (items.length > 0)`, source
lines 321-325). -/
def pushLoop (O : Nat) : List JSValue → Int → EngM Int
  | [], len => pureE len
  | E :: rest, len => do
      SetM O (intKey len) E true
      pushLoop O rest (len + 1)

/-- 22.1.3.18 Array.prototype.push (source lines 314-328). -/
def ArrayProto_push (items : List JSValue) (thisValue : JSValue) : EngM JSValue := do
  let O ← ToObjectM thisValue
  let lenProp ← GetM O "length"
  let len ← ToLengthM lenProp
  let argCount : Int := items.length
  if len + argCount > maxSafe then throwTE "ArrayPastSafeLength"
  else do
    let len2 ← pushLoop O items len
    SetM O "length" (JSValue.num (JSNum.int len2)) true
    pureE (JSValue.num (JSNum.int len2))

/-- Shifting loop of `ArrayProto_shift` (`while (k < len)` starting at
`k = 1`, source lines 341-352). -/
def shiftLoop (O : Nat) : Nat → Int → EngM Unit
  | 0, _ => pureE ()
  | rem + 1, k => do
      let fromKey := intKey k
      let toKey := intKey (k - 1)
      let fromPresent ← HasPropertyM O fromKey
      if fromPresent then do
        let fromVal ← GetM O fromKey
        SetM O toKey fromVal true
        shiftLoop O rem (k + 1)
      else do
        DeletePropertyOrThrowM O toKey
        shiftLoop O rem (k + 1)

/-- 22.1.3.22 Array.prototype.shift (source lines 331-356). -/
def ArrayProto_shift (thisValue : JSValue) : EngM JSValue := do
  let O ← ToObjectM thisValue
  let lenProp ← GetM O "length"
  let len ← ToLengthM lenProp
  if len = 0 then do
    SetM O "length" (JSValue.num (JSNum.int 0)) true
    pureE JSValue.undef
  else do
    let first ← GetM O "0"
    shiftLoop O (len - 1).toNat 1
    DeletePropertyOrThrowM O (intKey (len - 1))
    SetM O "length" (JSValue.num (JSNum.int (len - 1))) true
    pureE first

/-- Copy loop of `ArrayProto_slice` (`while (k < final)`, source lines
384-394). -/
def sliceLoop (O A : Nat) : Nat → Int → Int → EngM Int
  | 0, _, n => pureE n
  | rem + 1, k, n => do
      let Pk := intKey k
      let kPresent ← HasPropertyM O Pk
      if kPresent then do
        let kValue ← GetM O Pk
        CreateDataPropertyOrThrowM A (intKey n) kValue
        sliceLoop O A rem (k + 1) (n + 1)
      else
        sliceLoop O A rem (k + 1) (n + 1)

/-- 22.1.3.23 Array.prototype.slice (source lines 359-397). -/
def ArrayProto_slice (args : List JSValue) (thisValue : JSValue) : EngM JSValue := do
  let start := args.getD 0 JSValue.undef
  let endV := args.getD 1 JSValue.undef
  let O ← ToObjectM thisValue
  let lenProp ← GetM O "length"
  let len ← ToLengthM lenProp
  let relativeStart ← ToIntegerM start
  let k := clampRel relativeStart len
  let relativeEnd ← if endV = JSValue.undef then pureE (JSNum.int len) else ToIntegerM endV
  let final := clampRel relativeEnd len
  let count := max (final - k) 0
  let A ← ArraySpeciesCreateM O count
  let n ← sliceLoop O A (final - k).toNat k 0
  SetM A "length" (JSValue.num (JSNum.int n)) true
  pureE (JSValue.obj A)

/-- Body of Array.prototype.sort after the argument checks.  Modelled from
the spec: `ArrayProto_sortBody` lives in `ArrayPrototypeShared.mjs`, which
is not among the sources; the spec fixes only its interface (it receives
the object, its coerced length and a `SortCompare` closure), so it is
modelled as returning the receiver and none of the claims consult its
behaviour. -/
def ArrayProto_sortBody (obj : Nat) (_len : Int) (_comparefn : JSValue) : EngM JSValue :=
  pureE (JSValue.obj obj)

/-- The part of Array.prototype.sort after the comparator check (source
lines 404-408). -/
def sortAfterCheck (comparefn thisValue : JSValue) : EngM JSValue := do
  let obj ← ToObjectM thisValue
  let lenProp ← GetM obj "length"
  let len ← ToLengthM lenProp
  ArrayProto_sortBody obj len comparefn

/-- 22.1.3.25 Array.prototype.sort (source lines 400-409): the comparator
is checked before the receiver is touched. -/
def ArrayProto_sort (comparefn thisValue : JSValue) : EngM JSValue :=
  if comparefn = JSValue.undef then sortAfterCheck comparefn thisValue
  else do
    let callable ← IsCallableM comparefn
    if callable = false then throwTE "NotAFunction"
    else sortAfterCheck comparefn thisValue

/-- `Math.min(Math.max(dc, 0), bound)` on the embedded numbers (splice's
actual delete count, source line 434). -/
def spliceDeleteClamp (dc : JSNum) (bound : Int) : Int :=
  match dc with
  | JSNum.int i => min (max i 0) bound
  | JSNum.posInf => bound
  | JSNum.negInf => 0
  | JSNum.nan => 0

/-- First splice loop: copy the deleted window into `A` (source lines
441-449). -/
def spliceCopyLoop (O A : Nat) (actualStart : Int) : Nat → Int → EngM Unit
  | 0, _ => pureE ()
  | rem + 1, k => do
      let fromKey := intKey (actualStart + k)
      let fromPresent ← HasPropertyM O fromKey
      if fromPresent then do
        let fromValue ← GetM O fromKey
        CreateDataPropertyOrThrowM A (intKey k) fromValue
        spliceCopyLoop O A actualStart rem (k + 1)
      else
        spliceCopyLoop O A actualStart rem (k + 1)

/-- Leftward move loop of splice when fewer items are inserted than
deleted (source lines 453-465). -/
def spliceShrinkLoop (O : Nat) (adc itemCount : Int) : Nat → Int → EngM Unit
  | 0, _ => pureE ()
  | rem + 1, k => do
      let fromKey := intKey (k + adc)
      let toKey := intKey (k + itemCount)
      let fromPresent ← HasPropertyM O fromKey
      if fromPresent then do
        let fromValue ← GetM O fromKey
        SetM O toKey fromValue true
        spliceShrinkLoop O adc itemCount rem (k + 1)
      else do
        DeletePropertyOrThrowM O toKey
        spliceShrinkLoop O adc itemCount rem (k + 1)

/-- Tail-deletion loop of splice (source lines 466-470). -/
def spliceDeleteLoop (O : Nat) : Nat → Int → EngM Unit
  | 0, _ => pureE ()
  | rem + 1, k => do
      DeletePropertyOrThrowM O (intKey (k - 1))
      spliceDeleteLoop O rem (k - 1)

/-- Rightward move loop of splice when more items are inserted than
deleted (source lines 472-484). -/
def spliceGrowLoop (O : Nat) (adc itemCount : Int) : Nat → Int → EngM Unit
  | 0, _ => pureE ()
  | rem + 1, k => do
      let fromKey := intKey (k + adc - 1)
      let toKey := intKey (k + itemCount - 1)
      let fromPresent ← HasPropertyM O fromKey
      if fromPresent then do
        let fromValue ← GetM O fromKey
        SetM O toKey fromValue true
        spliceGrowLoop O adc itemCount rem (k - 1)
      else do
        DeletePropertyOrThrowM O toKey
        spliceGrowLoop O adc itemCount rem (k - 1)

/-- Insertion loop of splice (source lines 486-491). -/
def spliceInsertLoop (O : Nat) : List JSValue → Int → EngM Unit
  | [], _ => pureE ()
  | E :: rest, k => do
      SetM O (intKey k) E true
      spliceInsertLoop O rest (k + 1)

/-- 22.1.3.26 Array.prototype.splice (source lines 412-494). -/
def ArrayProto_splice (args : List JSValue) (thisValue : JSValue) : EngM JSValue := do
  let start := args.getD 0 JSValue.undef
  let deleteCount := args.getD 1 JSValue.undef
  let items := args.drop 2
  let O ← ToObjectM thisValue
  let lenProp ← GetM O "length"
  let len ← ToLengthM lenProp
  let relativeStart ← ToIntegerM start
  let actualStart := clampRel relativeStart len
  let icadc ← if args.length = 0 then pureE ((0 : Int), (0 : Int))
    else if args.length = 1 then pureE ((0 : Int), len - actualStart)
    else do
      let dc ← ToIntegerM deleteCount
      pureE ((args.length : Int) - 2, spliceDeleteClamp dc (len - actualStart))
  let insertCount := icadc.1
  let actualDeleteCount := icadc.2
  if len + insertCount - actualDeleteCount > maxSafe then throwTE "ArrayPastSafeLength"
  else do
    let A ← ArraySpeciesCreateM O actualDeleteCount
    spliceCopyLoop O A actualStart actualDeleteCount.toNat 0
    SetM A "length" (JSValue.num (JSNum.int actualDeleteCount)) true
    let itemCount : Int := items.length
    if itemCount < actualDeleteCount then do
      spliceShrinkLoop O actualDeleteCount itemCount (len - actualDeleteCount - actualStart).toNat actualStart
      spliceDeleteLoop O (actualDeleteCount - itemCount).toNat len
    else if itemCount > actualDeleteCount then
      spliceGrowLoop O actualDeleteCount itemCount (len - actualDeleteCount - actualStart).toNat (len - actualDeleteCount)
    else pureE ()
    spliceInsertLoop O items actualStart
    SetM O "length" (JSValue.num (JSNum.int (len - actualDeleteCount + itemCount))) true
    pureE (JSValue.obj A)

/-- Rightward move loop of `ArrayProto_unshift` (`while (k > 0)`, source
lines 517-528). -/
def unshiftMoveLoop (O : Nat) (argCount : Int) : Nat → Int → EngM Unit
  | 0, _ => pureE ()
  | rem + 1, k => do
      let fromKey := intKey (k - 1)
      let toKey := intKey (k + argCount - 1)
      let fromPresent ← HasPropertyM O fromKey
      if fromPresent then do
        let fromValue ← GetM O fromKey
        SetM O toKey fromValue true
        unshiftMoveLoop O argCount rem (k - 1)
      else do
        DeletePropertyOrThrowM O toKey
        unshiftMoveLoop O argCount rem (k - 1)

/-- Insertion loop of `ArrayProto_unshift` (source lines 529-536). -/
def unshiftInsertLoop (O : Nat) : List JSValue → Int → EngM Unit
  | [], _ => pureE ()
  | E :: rest, j => do
      SetM O (intKey j) E true
      unshiftInsertLoop O rest (j + 1)

/-- 22.1.3.29 Array.prototype.unshift (source lines 507-540). -/
def ArrayProto_unshift (args : List JSValue) (thisValue : JSValue) : EngM JSValue := do
  let O ← ToObjectM thisValue
  let lenProp ← GetM O "length"
  let len ← ToLengthM lenProp
  let argCount : Int := args.length
  if argCount > 0 then
    if len + argCount > maxSafe then throwTE "ArrayPastSafeLength"
    else do
      unshiftMoveLoop O argCount len.toNat len
      unshiftInsertLoop O args 0
      SetM O "length" (JSValue.num (JSNum.int (len + argCount))) true
      pureE (JSValue.num (JSNum.int (len + argCount)))
  else do
    SetM O "length" (JSValue.num (JSNum.int (len + argCount))) true
    pureE (JSValue.num (JSNum.int (len + argCount)))

/-! ### Monad calculation lemmas -/

theorem bind_def {α β : Type} (m : EngM α) (f : α → EngM β) : m >>= f = bindE m f := rfl

theorem pure_def {α : Type} (a : α) : (pure a : EngM α) = pureE a := rfl

theorem bindE_ok {α β : Type} {m : EngM α} {f : α → EngM β} {s s' : St} {a : α}
    (h : m s = (Comp.ok a, s')) : bindE m f s = f a s' := by
  unfold bindE
  rw [h]

theorem bindE_err {α β : Type} {m : EngM α} {f : α → EngM β} {s s' : St} {e : JSValue}
    (h : m s = (Comp.err e, s')) : bindE m f s = (Comp.err e, s') := by
  unfold bindE
  rw [h]

theorem pureE_app {α : Type} (a : α) (s : St) : pureE a s = (Comp.ok a, s) := rfl

theorem throwE_app {α : Type} (v : JSValue) (s : St) : (throwE v : EngM α) s = (Comp.err v, s) := rfl

/-! ### Observations of concrete final states -/

/-- The value of a data property in a state, `none` for missing or
accessor properties. -/
def propOf (s : St) (r : Nat) (k : String) : Option JSValue :=
  match (objAt s.heap r).props.lookup k with
  | some (PropDesc.data v _) => some v
  | _ => none

/-- Whether the object at `r` has an own property `k`. -/
def hasOwn (s : St) (r : Nat) (k : String) : Bool :=
  ((objAt s.heap r).props.lookup k).isSome

/-! ### Concrete heaps for the scenario claims -/

def dataN (i : Int) : PropDesc := PropDesc.data (JSValue.num (JSNum.int i)) true

/-- The array `[1, 2, 3]`. -/
def arr123Obj : JSObject :=
  { props := [("length", dataN 3), ("0", dataN 1), ("1", dataN 2), ("2", dataN 3)],
    isArray := true, callBody := none, valueOfBody := none }

def st123 : St := { heap := [arr123Obj], events := [] }

/-- An array object whose elements are the given list. -/
def arrOf (xs : List JSValue) : JSObject :=
  { props := ("length", dataN xs.length) :: (xs.enum.map (fun p => (intKey (p.1 : Int), PropDesc.data p.2 true))),
    isArray := true, callBody := none, valueOfBody := none }

/-- Heap for `[[1,2],[3,[4]]]`: reference 0 is `[1,2]`, reference 1 is
`[4]`, reference 2 is `[3,[4]]`, reference 3 is the receiver. -/
def stNest : St :=
  { heap := [arrOf [JSValue.num (JSNum.int 1), JSValue.num (JSNum.int 2)],
             arrOf [JSValue.num (JSNum.int 4)],
             arrOf [JSValue.num (JSNum.int 3), JSValue.obj 1],
             arrOf [JSValue.obj 0, JSValue.obj 2]], events := [] }

/-- Claim C1: on the array `[1,2,3]`, `push(4)` returns the new length 4
and leaves the `length` property at 4; the subsequent `pop()` returns 4,
leaves `length` at 3, and deletes the own property `"3"`. -/
theorem claim_C1 :
    (ArrayProto_push [JSValue.num (JSNum.int 4)] (JSValue.obj 0) st123).1
      = Comp.ok (JSValue.num (JSNum.int 4)) ∧
    propOf (ArrayProto_push [JSValue.num (JSNum.int 4)] (JSValue.obj 0) st123).2 0 "length"
      = some (JSValue.num (JSNum.int 4)) ∧
    (ArrayProto_pop (JSValue.obj 0)
        (ArrayProto_push [JSValue.num (JSNum.int 4)] (JSValue.obj 0) st123).2).1
      = Comp.ok (JSValue.num (JSNum.int 4)) ∧
    propOf (ArrayProto_pop (JSValue.obj 0)
        (ArrayProto_push [JSValue.num (JSNum.int 4)] (JSValue.obj 0) st123).2).2 0 "length"
      = some (JSValue.num (JSNum.int 3)) ∧
    hasOwn (ArrayProto_pop (JSValue.obj 0)
        (ArrayProto_push [JSValue.num (JSNum.int 4)] (JSValue.obj 0) st123).2).2 0 "3" = false := by
  decide

/-- Claim C2: on `[[1,2],[3,[4]]]`, `flat()` returns a fresh array whose
elements are `1, 2, 3, [4]` in that order, `flat(Infinity)` returns a
fresh array whose elements are `1, 2, 3, 4`, and in both cases all four
pre-existing objects (the receiver and its nested arrays) are unchanged. -/
theorem claim_C2 :
    (let r := ArrayProto_flat 10 [] (JSValue.obj 3) stNest
     r.1 = Comp.ok (some (JSValue.obj 4)) ∧
     propOf r.2 4 "0" = some (JSValue.num (JSNum.int 1)) ∧
     propOf r.2 4 "1" = some (JSValue.num (JSNum.int 2)) ∧
     propOf r.2 4 "2" = some (JSValue.num (JSNum.int 3)) ∧
     propOf r.2 4 "3" = some (JSValue.obj 1) ∧
     propOf r.2 4 "length" = some (JSValue.num (JSNum.int 4)) ∧
     hasOwn r.2 4 "4" = false ∧
     propOf r.2 1 "0" = some (JSValue.num (JSNum.int 4)) ∧
     objAt r.2.heap 0 = objAt stNest.heap 0 ∧
     objAt r.2.heap 1 = objAt stNest.heap 1 ∧
     objAt r.2.heap 2 = objAt stNest.heap 2 ∧
     objAt r.2.heap 3 = objAt stNest.heap 3) ∧
    (let r := ArrayProto_flat 10 [JSValue.num JSNum.posInf] (JSValue.obj 3) stNest
     r.1 = Comp.ok (some (JSValue.obj 4)) ∧
     propOf r.2 4 "0" = some (JSValue.num (JSNum.int 1)) ∧
     propOf r.2 4 "1" = some (JSValue.num (JSNum.int 2)) ∧
     propOf r.2 4 "2" = some (JSValue.num (JSNum.int 3)) ∧
     propOf r.2 4 "3" = some (JSValue.num (JSNum.int 4)) ∧
     propOf r.2 4 "length" = some (JSValue.num (JSNum.int 4)) ∧
     hasOwn r.2 4 "4" = false ∧
     objAt r.2.heap 0 = objAt stNest.heap 0 ∧
     objAt r.2.heap 1 = objAt stNest.heap 1 ∧
     objAt r.2.heap 2 = objAt stNest.heap 2 ∧
     objAt r.2.heap 3 = objAt stNest.heap 3) := by
  constructor
  · decide
  · decide

/-! ### Event-log preservation of the coercion path

The operations executed before a method's callable check (receiver
coercion, length read, length coercion) never log a call event; in fact
they never touch the event log at all. -/

theorem runHost_events (p : HostProg) : ∀ s : St, ((runHost p s).2).events = s.events := by
  induction p with
  | ret v => intro s; rfl
  | throwV v => intro s; rfl
  | store r k v q ih =>
      intro s
      unfold runHost
      exact ih _

theorem GetM_events (r : Nat) (k : String) (s : St) : ((GetM r k s).2).events = s.events := by
  unfold GetM
  rcases (objAt s.heap r).props.lookup k with _ | d
  · rfl
  · rcases d with ⟨v, w⟩ | g
    · rfl
    · exact runHost_events g s

theorem bindE_events {α β : Type} {m : EngM α} {f : α → EngM β}
    (hm : ∀ s : St, ((m s).2).events = s.events)
    (hf : ∀ (a : α) (s : St), ((f a s).2).events = s.events) (s : St) :
    ((bindE m f s).2).events = s.events := by
  unfold bindE
  rcases hms : m s with ⟨c, s1⟩
  have h1 : s1.events = s.events := by rw [← hm s, hms]
  cases c
  · rw [hf _ s1, h1]
  · exact h1

theorem ToObjectM_events (v : JSValue) (s : St) : ((ToObjectM v s).2).events = s.events := by
  cases v <;> rfl

theorem ToNumberM_events (v : JSValue) (s : St) : ((ToNumberM v s).2).events = s.events := by
  cases v with
  | obj r =>
      simp only [ToNumberM]
      rcases hv : (objAt s.heap r).valueOfBody with _ | p
      · simp only [hv]
      · simp only [hv]
        rcases hr : runHost p s with ⟨c, s1⟩
        have h1 : s1.events = s.events := by rw [← runHost_events p s, hr]
        cases c with
        | ok w => cases w <;> simp only [hr] <;> exact h1
        | err e => simp only [hr]; exact h1
  | undef => rfl
  | null => rfl
  | bool b => rfl
  | num n => rfl
  | str t => rfl
  | errorObj k m => rfl

theorem ToIntegerM_events (v : JSValue) (s : St) : ((ToIntegerM v s).2).events = s.events := by
  unfold ToIntegerM
  exact bindE_events (ToNumberM_events v) (fun a s => rfl) s

theorem ToLengthM_events (v : JSValue) (s : St) : ((ToLengthM v s).2).events = s.events := by
  unfold ToLengthM
  exact bindE_events (ToIntegerM_events v) (fun a s => rfl) s

/-! ### Abrupt propagation through the length-reading path (claim C5)

For each method, an abrupt completion of `Get(O, "length")` and an abrupt
completion of the subsequent `ToLength` propagate unchanged, with the
state exactly as the failing step left it; since the state produced by the
getter read is the state the coercion starts from, the getter's side
effects are observed before the coercion's. -/

theorem getAbrupt_map (args : List JSValue) (th : JSValue) (st : St) (O : Nat) (s1 : St)
    (e : JSValue) (s2 : St) (hO : ToObjectM th st = (Comp.ok O, s1))
    (hG : GetM O "length" s1 = (Comp.err e, s2)) :
    ArrayProto_map args th st = (Comp.err e, s2) := by
  unfold ArrayProto_map
  simp only [bind_def, bindE_ok hO, bindE_err hG]

theorem lenAbrupt_map (args : List JSValue) (th : JSValue) (st : St) (O : Nat) (s1 : St)
    (lenProp : JSValue) (s2 : St) (e : JSValue) (s3 : St)
    (hO : ToObjectM th st = (Comp.ok O, s1)) (hG : GetM O "length" s1 = (Comp.ok lenProp, s2))
    (hL : ToLengthM lenProp s2 = (Comp.err e, s3)) :
    ArrayProto_map args th st = (Comp.err e, s3) := by
  unfold ArrayProto_map
  simp only [bind_def, bindE_ok hO, bindE_ok hG, bindE_err hL]

theorem getAbrupt_filter (args : List JSValue) (th : JSValue) (st : St) (O : Nat) (s1 : St)
    (e : JSValue) (s2 : St) (hO : ToObjectM th st = (Comp.ok O, s1))
    (hG : GetM O "length" s1 = (Comp.err e, s2)) :
    ArrayProto_filter args th st = (Comp.err e, s2) := by
  unfold ArrayProto_filter
  simp only [bind_def, bindE_ok hO, bindE_err hG]

theorem lenAbrupt_filter (args : List JSValue) (th : JSValue) (st : St) (O : Nat) (s1 : St)
    (lenProp : JSValue) (s2 : St) (e : JSValue) (s3 : St)
    (hO : ToObjectM th st = (Comp.ok O, s1)) (hG : GetM O "length" s1 = (Comp.ok lenProp, s2))
    (hL : ToLengthM lenProp s2 = (Comp.err e, s3)) :
    ArrayProto_filter args th st = (Comp.err e, s3) := by
  unfold ArrayProto_filter
  simp only [bind_def, bindE_ok hO, bindE_ok hG, bindE_err hL]

theorem getAbrupt_copyWithin (args : List JSValue) (th : JSValue) (st : St) (O : Nat) (s1 : St)
    (e : JSValue) (s2 : St) (hO : ToObjectM th st = (Comp.ok O, s1))
    (hG : GetM O "length" s1 = (Comp.err e, s2)) :
    ArrayProto_copyWithin args th st = (Comp.err e, s2) := by
  unfold ArrayProto_copyWithin
  simp only [bind_def, bindE_ok hO, bindE_err hG]

theorem lenAbrupt_copyWithin (args : List JSValue) (th : JSValue) (st : St) (O : Nat) (s1 : St)
    (lenProp : JSValue) (s2 : St) (e : JSValue) (s3 : St)
    (hO : ToObjectM th st = (Comp.ok O, s1)) (hG : GetM O "length" s1 = (Comp.ok lenProp, s2))
    (hL : ToLengthM lenProp s2 = (Comp.err e, s3)) :
    ArrayProto_copyWithin args th st = (Comp.err e, s3) := by
  unfold ArrayProto_copyWithin
  simp only [bind_def, bindE_ok hO, bindE_ok hG, bindE_err hL]

theorem getAbrupt_fill (args : List JSValue) (th : JSValue) (st : St) (O : Nat) (s1 : St)
    (e : JSValue) (s2 : St) (hO : ToObjectM th st = (Comp.ok O, s1))
    (hG : GetM O "length" s1 = (Comp.err e, s2)) :
    ArrayProto_fill args th st = (Comp.err e, s2) := by
  unfold ArrayProto_fill
  simp only [bind_def, bindE_ok hO, bindE_err hG]

theorem lenAbrupt_fill (args : List JSValue) (th : JSValue) (st : St) (O : Nat) (s1 : St)
    (lenProp : JSValue) (s2 : St) (e : JSValue) (s3 : St)
    (hO : ToObjectM th st = (Comp.ok O, s1)) (hG : GetM O "length" s1 = (Comp.ok lenProp, s2))
    (hL : ToLengthM lenProp s2 = (Comp.err e, s3)) :
    ArrayProto_fill args th st = (Comp.err e, s3) := by
  unfold ArrayProto_fill
  simp only [bind_def, bindE_ok hO, bindE_ok hG, bindE_err hL]

theorem getAbrupt_flat (fuel : Nat) (args : List JSValue) (th : JSValue) (st : St) (O : Nat)
    (s1 : St) (e : JSValue) (s2 : St) (hO : ToObjectM th st = (Comp.ok O, s1))
    (hG : GetM O "length" s1 = (Comp.err e, s2)) :
    ArrayProto_flat fuel args th st = (Comp.err e, s2) := by
  unfold ArrayProto_flat
  simp only [bind_def, bindE_ok hO, bindE_err hG]

theorem lenAbrupt_flat (fuel : Nat) (args : List JSValue) (th : JSValue) (st : St) (O : Nat)
    (s1 : St) (lenProp : JSValue) (s2 : St) (e : JSValue) (s3 : St)
    (hO : ToObjectM th st = (Comp.ok O, s1)) (hG : GetM O "length" s1 = (Comp.ok lenProp, s2))
    (hL : ToLengthM lenProp s2 = (Comp.err e, s3)) :
    ArrayProto_flat fuel args th st = (Comp.err e, s3) := by
  unfold ArrayProto_flat
  simp only [bind_def, bindE_ok hO, bindE_ok hG, bindE_err hL]

theorem getAbrupt_flatMap (fuel : Nat) (args : List JSValue) (th : JSValue) (st : St) (O : Nat)
    (s1 : St) (e : JSValue) (s2 : St) (hO : ToObjectM th st = (Comp.ok O, s1))
    (hG : GetM O "length" s1 = (Comp.err e, s2)) :
    ArrayProto_flatMap fuel args th st = (Comp.err e, s2) := by
  unfold ArrayProto_flatMap
  simp only [bind_def, bindE_ok hO, bindE_err hG]

theorem lenAbrupt_flatMap (fuel : Nat) (args : List JSValue) (th : JSValue) (st : St) (O : Nat)
    (s1 : St) (lenProp : JSValue) (s2 : St) (e : JSValue) (s3 : St)
    (hO : ToObjectM th st = (Comp.ok O, s1)) (hG : GetM O "length" s1 = (Comp.ok lenProp, s2))
    (hL : ToLengthM lenProp s2 = (Comp.err e, s3)) :
    ArrayProto_flatMap fuel args th st = (Comp.err e, s3) := by
  unfold ArrayProto_flatMap
  simp only [bind_def, bindE_ok hO, bindE_ok hG, bindE_err hL]

theorem getAbrupt_pop (th : JSValue) (st : St) (O : Nat) (s1 : St)
    (e : JSValue) (s2 : St) (hO : ToObjectM th st = (Comp.ok O, s1))
    (hG : GetM O "length" s1 = (Comp.err e, s2)) :
    ArrayProto_pop th st = (Comp.err e, s2) := by
  unfold ArrayProto_pop
  simp only [bind_def, bindE_ok hO, bindE_err hG]

theorem lenAbrupt_pop (th : JSValue) (st : St) (O : Nat) (s1 : St)
    (lenProp : JSValue) (s2 : St) (e : JSValue) (s3 : St)
    (hO : ToObjectM th st = (Comp.ok O, s1)) (hG : GetM O "length" s1 = (Comp.ok lenProp, s2))
    (hL : ToLengthM lenProp s2 = (Comp.err e, s3)) :
    ArrayProto_pop th st = (Comp.err e, s3) := by
  unfold ArrayProto_pop
  simp only [bind_def, bindE_ok hO, bindE_ok hG, bindE_err hL]

theorem getAbrupt_push (items : List JSValue) (th : JSValue) (st : St) (O : Nat) (s1 : St)
    (e : JSValue) (s2 : St) (hO : ToObjectM th st = (Comp.ok O, s1))
    (hG : GetM O "length" s1 = (Comp.err e, s2)) :
    ArrayProto_push items th st = (Comp.err e, s2) := by
  unfold ArrayProto_push
  simp only [bind_def, bindE_ok hO, bindE_err hG]

theorem lenAbrupt_push (items : List JSValue) (th : JSValue) (st : St) (O : Nat) (s1 : St)
    (lenProp : JSValue) (s2 : St) (e : JSValue) (s3 : St)
    (hO : ToObjectM th st = (Comp.ok O, s1)) (hG : GetM O "length" s1 = (Comp.ok lenProp, s2))
    (hL : ToLengthM lenProp s2 = (Comp.err e, s3)) :
    ArrayProto_push items th st = (Comp.err e, s3) := by
  unfold ArrayProto_push
  simp only [bind_def, bindE_ok hO, bindE_ok hG, bindE_err hL]

theorem getAbrupt_shift (th : JSValue) (st : St) (O : Nat) (s1 : St)
    (e : JSValue) (s2 : St) (hO : ToObjectM th st = (Comp.ok O, s1))
    (hG : GetM O "length" s1 = (Comp.err e, s2)) :
    ArrayProto_shift th st = (Comp.err e, s2) := by
  unfold ArrayProto_shift
  simp only [bind_def, bindE_ok hO, bindE_err hG]

theorem lenAbrupt_shift (th : JSValue) (st : St) (O : Nat) (s1 : St)
    (lenProp : JSValue) (s2 : St) (e : JSValue) (s3 : St)
    (hO : ToObjectM th st = (Comp.ok O, s1)) (hG : GetM O "length" s1 = (Comp.ok lenProp, s2))
    (hL : ToLengthM lenProp s2 = (Comp.err e, s3)) :
    ArrayProto_shift th st = (Comp.err e, s3) := by
  unfold ArrayProto_shift
  simp only [bind_def, bindE_ok hO, bindE_ok hG, bindE_err hL]

theorem getAbrupt_slice (args : List JSValue) (th : JSValue) (st : St) (O : Nat) (s1 : St)
    (e : JSValue) (s2 : St) (hO : ToObjectM th st = (Comp.ok O, s1))
    (hG : GetM O "length" s1 = (Comp.err e, s2)) :
    ArrayProto_slice args th st = (Comp.err e, s2) := by
  unfold ArrayProto_slice
  simp only [bind_def, bindE_ok hO, bindE_err hG]

theorem lenAbrupt_slice (args : List JSValue) (th : JSValue) (st : St) (O : Nat) (s1 : St)
    (lenProp : JSValue) (s2 : St) (e : JSValue) (s3 : St)
    (hO : ToObjectM th st = (Comp.ok O, s1)) (hG : GetM O "length" s1 = (Comp.ok lenProp, s2))
    (hL : ToLengthM lenProp s2 = (Comp.err e, s3)) :
    ArrayProto_slice args th st = (Comp.err e, s3) := by
  unfold ArrayProto_slice
  simp only [bind_def, bindE_ok hO, bindE_ok hG, bindE_err hL]

theorem getAbrupt_splice (args : List JSValue) (th : JSValue) (st : St) (O : Nat) (s1 : St)
    (e : JSValue) (s2 : St) (hO : ToObjectM th st = (Comp.ok O, s1))
    (hG : GetM O "length" s1 = (Comp.err e, s2)) :
    ArrayProto_splice args th st = (Comp.err e, s2) := by
  unfold ArrayProto_splice
  simp only [bind_def, bindE_ok hO, bindE_err hG]

theorem lenAbrupt_splice (args : List JSValue) (th : JSValue) (st : St) (O : Nat) (s1 : St)
    (lenProp : JSValue) (s2 : St) (e : JSValue) (s3 : St)
    (hO : ToObjectM th st = (Comp.ok O, s1)) (hG : GetM O "length" s1 = (Comp.ok lenProp, s2))
    (hL : ToLengthM lenProp s2 = (Comp.err e, s3)) :
    ArrayProto_splice args th st = (Comp.err e, s3) := by
  unfold ArrayProto_splice
  simp only [bind_def, bindE_ok hO, bindE_ok hG, bindE_err hL]

theorem getAbrupt_unshift (args : List JSValue) (th : JSValue) (st : St) (O : Nat) (s1 : St)
    (e : JSValue) (s2 : St) (hO : ToObjectM th st = (Comp.ok O, s1))
    (hG : GetM O "length" s1 = (Comp.err e, s2)) :
    ArrayProto_unshift args th st = (Comp.err e, s2) := by
  unfold ArrayProto_unshift
  simp only [bind_def, bindE_ok hO, bindE_err hG]

theorem lenAbrupt_unshift (args : List JSValue) (th : JSValue) (st : St) (O : Nat) (s1 : St)
    (lenProp : JSValue) (s2 : St) (e : JSValue) (s3 : St)
    (hO : ToObjectM th st = (Comp.ok O, s1)) (hG : GetM O "length" s1 = (Comp.ok lenProp, s2))
    (hL : ToLengthM lenProp s2 = (Comp.err e, s3)) :
    ArrayProto_unshift args th st = (Comp.err e, s3) := by
  unfold ArrayProto_unshift
  simp only [bind_def, bindE_ok hO, bindE_ok hG, bindE_err hL]

theorem getAbrupt_sort (comparefn th : JSValue) (st : St) (O : Nat) (s1 : St)
    (e : JSValue) (s2 : St)
    (hc : comparefn = JSValue.undef ∨ isCallableSt st comparefn = true)
    (hO : ToObjectM th st = (Comp.ok O, s1))
    (hG : GetM O "length" s1 = (Comp.err e, s2)) :
    ArrayProto_sort comparefn th st = (Comp.err e, s2) := by
  have hbody : sortAfterCheck comparefn th st = (Comp.err e, s2) := by
    unfold sortAfterCheck
    simp only [bind_def, bindE_ok hO, bindE_err hG]
  rcases hc with hc | hc
  · unfold ArrayProto_sort
    rw [if_pos hc]
    exact hbody
  · by_cases hu : comparefn = JSValue.undef
    · unfold ArrayProto_sort
      rw [if_pos hu]
      exact hbody
    · unfold ArrayProto_sort
      rw [if_neg hu]
      simp only [bind_def]
      have hcall : IsCallableM comparefn st = (Comp.ok true, st) := by
        simp only [IsCallableM, readS, hc]
      simp only [bindE_ok hcall]
      simpa using hbody

theorem lenAbrupt_sort (comparefn th : JSValue) (st : St) (O : Nat) (s1 : St)
    (lenProp : JSValue) (s2 : St) (e : JSValue) (s3 : St)
    (hc : comparefn = JSValue.undef ∨ isCallableSt st comparefn = true)
    (hO : ToObjectM th st = (Comp.ok O, s1)) (hG : GetM O "length" s1 = (Comp.ok lenProp, s2))
    (hL : ToLengthM lenProp s2 = (Comp.err e, s3)) :
    ArrayProto_sort comparefn th st = (Comp.err e, s3) := by
  have hbody : sortAfterCheck comparefn th st = (Comp.err e, s3) := by
    unfold sortAfterCheck
    simp only [bind_def, bindE_ok hO, bindE_ok hG, bindE_err hL]
  rcases hc with hc | hc
  · unfold ArrayProto_sort
    rw [if_pos hc]
    exact hbody
  · by_cases hu : comparefn = JSValue.undef
    · unfold ArrayProto_sort
      rw [if_pos hu]
      exact hbody
    · unfold ArrayProto_sort
      rw [if_neg hu]
      simp only [bind_def]
      have hcall : IsCallableM comparefn st = (Comp.ok true, st) := by
        simp only [IsCallableM, readS, hc]
      simp only [bindE_ok hcall]
      simpa using hbody

theorem getAbrupt_concat (args : List JSValue) (th : JSValue) (st : St) (O A : Nat)
    (s1 s2 s3 : St) (e : JSValue) (s4 : St)
    (hO : ToObjectM th st = (Comp.ok O, s1))
    (hA : ArraySpeciesCreateM O 0 s1 = (Comp.ok A, s2))
    (hSp : IsConcatSpreadableM (JSValue.obj O) s2 = (Comp.ok true, s3))
    (hG : GetM O "length" s3 = (Comp.err e, s4)) :
    ArrayProto_concat args th st = (Comp.err e, s4) := by
  have hloop : concatOuterLoop A (JSValue.obj O :: args) 0 s2 = (Comp.err e, s4) := by
    unfold concatOuterLoop
    simp only [bind_def, bindE_ok hSp, if_pos rfl, if_true, GetVal, bindE_err hG]
  unfold ArrayProto_concat
  simp only [bind_def, bindE_ok hO, bindE_ok hA, bindE_err hloop]

theorem lenAbrupt_concat (args : List JSValue) (th : JSValue) (st : St) (O A : Nat)
    (s1 s2 s3 : St) (lenProp : JSValue) (s4 : St) (e : JSValue) (s5 : St)
    (hO : ToObjectM th st = (Comp.ok O, s1))
    (hA : ArraySpeciesCreateM O 0 s1 = (Comp.ok A, s2))
    (hSp : IsConcatSpreadableM (JSValue.obj O) s2 = (Comp.ok true, s3))
    (hG : GetM O "length" s3 = (Comp.ok lenProp, s4))
    (hL : ToLengthM lenProp s4 = (Comp.err e, s5)) :
    ArrayProto_concat args th st = (Comp.err e, s5) := by
  have hloop : concatOuterLoop A (JSValue.obj O :: args) 0 s2 = (Comp.err e, s5) := by
    unfold concatOuterLoop
    simp only [bind_def, bindE_ok hSp, if_pos rfl, if_true, GetVal, bindE_ok hG, bindE_err hL]
  unfold ArrayProto_concat
  simp only [bind_def, bindE_ok hO, bindE_ok hA, bindE_err hloop]

/-! ### Non-callable callback checks (claim C4) -/

theorem notCallable_filter (args : List JSValue) (th : JSValue) (st : St) (O : Nat) (s1 : St)
    (lenProp : JSValue) (s2 : St) (len : Int) (s3 : St)
    (hO : ToObjectM th st = (Comp.ok O, s1)) (hG : GetM O "length" s1 = (Comp.ok lenProp, s2))
    (hL : ToLengthM lenProp s2 = (Comp.ok len, s3))
    (hnc : isCallableSt s3 (args.getD 0 JSValue.undef) = false) :
    ArrayProto_filter args th st = (Comp.err (JSValue.errorObj "TypeError" "NotAFunction"), s3) ∧
      s3.events = st.events := by
  constructor
  · have hcall : IsCallableM (args.getD 0 JSValue.undef) s3 = (Comp.ok false, s3) := by
      simp only [IsCallableM, readS, hnc]
    unfold ArrayProto_filter
    simp only [bind_def, bindE_ok hO, bindE_ok hG, bindE_ok hL, bindE_ok hcall, if_pos rfl]
    rfl
  · have e3 : s3.events = s2.events := by rw [← ToLengthM_events lenProp s2, hL]
    have e2 : s2.events = s1.events := by rw [← GetM_events O "length" s1, hG]
    have e1 : s1.events = st.events := by rw [← ToObjectM_events th st, hO]
    rw [e3, e2, e1]

theorem notCallable_map (args : List JSValue) (th : JSValue) (st : St) (O : Nat) (s1 : St)
    (lenProp : JSValue) (s2 : St) (len : Int) (s3 : St)
    (hO : ToObjectM th st = (Comp.ok O, s1)) (hG : GetM O "length" s1 = (Comp.ok lenProp, s2))
    (hL : ToLengthM lenProp s2 = (Comp.ok len, s3))
    (hnc : isCallableSt s3 (args.getD 0 JSValue.undef) = false) :
    ArrayProto_map args th st = (Comp.err (JSValue.errorObj "TypeError" "callbackfn is not callable"), s3) ∧
      s3.events = st.events := by
  constructor
  · have hcall : IsCallableM (args.getD 0 JSValue.undef) s3 = (Comp.ok false, s3) := by
      simp only [IsCallableM, readS, hnc]
    unfold ArrayProto_map
    simp only [bind_def, bindE_ok hO, bindE_ok hG, bindE_ok hL, bindE_ok hcall, if_pos rfl]
    rfl
  · have e3 : s3.events = s2.events := by rw [← ToLengthM_events lenProp s2, hL]
    have e2 : s2.events = s1.events := by rw [← GetM_events O "length" s1, hG]
    have e1 : s1.events = st.events := by rw [← ToObjectM_events th st, hO]
    rw [e3, e2, e1]

theorem notCallable_flatMap (fuel : Nat) (args : List JSValue) (th : JSValue) (st : St) (O : Nat)
    (s1 : St) (lenProp : JSValue) (s2 : St) (len : Int) (s3 : St)
    (hO : ToObjectM th st = (Comp.ok O, s1)) (hG : GetM O "length" s1 = (Comp.ok lenProp, s2))
    (hL : ToLengthM lenProp s2 = (Comp.ok len, s3))
    (hnc : isCallableSt s3 (args.getD 0 JSValue.undef) = false) :
    ArrayProto_flatMap fuel args th st = (Comp.err (JSValue.errorObj "TypeError" ""), s3) ∧
      s3.events = st.events := by
  constructor
  · have hcall : IsCallableM (args.getD 0 JSValue.undef) s3 = (Comp.ok false, s3) := by
      simp only [IsCallableM, readS, hnc]
    unfold ArrayProto_flatMap
    simp only [bind_def, bindE_ok hO, bindE_ok hG, bindE_ok hL, bindE_ok hcall, if_pos rfl]
    rfl
  · have e3 : s3.events = s2.events := by rw [← ToLengthM_events lenProp s2, hL]
    have e2 : s2.events = s1.events := by rw [← GetM_events O "length" s1, hG]
    have e1 : s1.events = st.events := by rw [← ToObjectM_events th st, hO]
    rw [e3, e2, e1]

theorem notCallable_sort (comparefn th : JSValue) (st : St)
    (hne : comparefn ≠ JSValue.undef) (hnc : isCallableSt st comparefn = false) :
    ArrayProto_sort comparefn th st = (Comp.err (JSValue.errorObj "TypeError" "NotAFunction"), st) := by
  have hcall : IsCallableM comparefn st = (Comp.ok false, st) := by
    simp only [IsCallableM, readS, hnc]
  unfold ArrayProto_sort
  rw [if_neg hne]
  simp only [bind_def, bindE_ok hcall, if_pos rfl]
  rfl

/-! ### pop and shift on a zero-coercing length (claim C9) -/

theorem popZero_set_ok (th : JSValue) (st : St) (O : Nat) (s1 : St) (lenProp : JSValue)
    (s2 s3 s4 : St)
    (hO : ToObjectM th st = (Comp.ok O, s1)) (hG : GetM O "length" s1 = (Comp.ok lenProp, s2))
    (hL : ToLengthM lenProp s2 = (Comp.ok 0, s3))
    (hS : SetM O "length" (JSValue.num (JSNum.int 0)) true s3 = (Comp.ok (), s4)) :
    ArrayProto_pop th st = (Comp.ok JSValue.undef, s4) := by
  unfold ArrayProto_pop
  simp only [bind_def, bindE_ok hO, bindE_ok hG, bindE_ok hL, if_pos rfl, if_true, bindE_ok hS]
  rfl

theorem popZero_set_err (th : JSValue) (st : St) (O : Nat) (s1 : St) (lenProp : JSValue)
    (s2 s3 : St) (e : JSValue) (s4 : St)
    (hO : ToObjectM th st = (Comp.ok O, s1)) (hG : GetM O "length" s1 = (Comp.ok lenProp, s2))
    (hL : ToLengthM lenProp s2 = (Comp.ok 0, s3))
    (hS : SetM O "length" (JSValue.num (JSNum.int 0)) true s3 = (Comp.err e, s4)) :
    ArrayProto_pop th st = (Comp.err e, s4) := by
  unfold ArrayProto_pop
  simp only [bind_def, bindE_ok hO, bindE_ok hG, bindE_ok hL, if_pos rfl, if_true, bindE_err hS]

theorem shiftZero_set_ok (th : JSValue) (st : St) (O : Nat) (s1 : St) (lenProp : JSValue)
    (s2 s3 s4 : St)
    (hO : ToObjectM th st = (Comp.ok O, s1)) (hG : GetM O "length" s1 = (Comp.ok lenProp, s2))
    (hL : ToLengthM lenProp s2 = (Comp.ok 0, s3))
    (hS : SetM O "length" (JSValue.num (JSNum.int 0)) true s3 = (Comp.ok (), s4)) :
    ArrayProto_shift th st = (Comp.ok JSValue.undef, s4) := by
  unfold ArrayProto_shift
  simp only [bind_def, bindE_ok hO, bindE_ok hG, bindE_ok hL, if_pos rfl, if_true, bindE_ok hS]
  rfl

theorem shiftZero_set_err (th : JSValue) (st : St) (O : Nat) (s1 : St) (lenProp : JSValue)
    (s2 s3 : St) (e : JSValue) (s4 : St)
    (hO : ToObjectM th st = (Comp.ok O, s1)) (hG : GetM O "length" s1 = (Comp.ok lenProp, s2))
    (hL : ToLengthM lenProp s2 = (Comp.ok 0, s3))
    (hS : SetM O "length" (JSValue.num (JSNum.int 0)) true s3 = (Comp.err e, s4)) :
    ArrayProto_shift th st = (Comp.err e, s4) := by
  unfold ArrayProto_shift
  simp only [bind_def, bindE_ok hO, bindE_ok hG, bindE_ok hL, if_pos rfl, if_true, bindE_err hS]

/-! ### Safe-length overflow guards (claim C3) -/

theorem overflow_push (items : List JSValue) (th : JSValue) (st : St) (O : Nat) (s1 : St)
    (lenProp : JSValue) (s2 : St) (len : Int) (s3 : St)
    (hO : ToObjectM th st = (Comp.ok O, s1)) (hG : GetM O "length" s1 = (Comp.ok lenProp, s2))
    (hL : ToLengthM lenProp s2 = (Comp.ok len, s3))
    (hb : len + (items.length : Int) > maxSafe) :
    ArrayProto_push items th st = (Comp.err (JSValue.errorObj "TypeError" "ArrayPastSafeLength"), s3) := by
  unfold ArrayProto_push
  simp only [bind_def, bindE_ok hO, bindE_ok hG, bindE_ok hL, if_pos hb]
  rfl

theorem overflow_unshift (args : List JSValue) (th : JSValue) (st : St) (O : Nat) (s1 : St)
    (lenProp : JSValue) (s2 : St) (len : Int) (s3 : St)
    (hO : ToObjectM th st = (Comp.ok O, s1)) (hG : GetM O "length" s1 = (Comp.ok lenProp, s2))
    (hL : ToLengthM lenProp s2 = (Comp.ok len, s3))
    (hpos : (args.length : Int) > 0)
    (hb : len + (args.length : Int) > maxSafe) :
    ArrayProto_unshift args th st = (Comp.err (JSValue.errorObj "TypeError" "ArrayPastSafeLength"), s3) := by
  unfold ArrayProto_unshift
  simp only [bind_def, bindE_ok hO, bindE_ok hG, bindE_ok hL, if_pos hpos, if_pos hb]
  rfl

theorem overflow_splice (args : List JSValue) (th : JSValue) (st : St) (O : Nat) (s1 : St)
    (lenProp : JSValue) (s2 : St) (len : Int) (s3 : St) (rs : JSNum) (s4 : St)
    (dc : JSNum) (s5 : St)
    (hO : ToObjectM th st = (Comp.ok O, s1)) (hG : GetM O "length" s1 = (Comp.ok lenProp, s2))
    (hL : ToLengthM lenProp s2 = (Comp.ok len, s3))
    (hRS : ToIntegerM (args.getD 0 JSValue.undef) s3 = (Comp.ok rs, s4))
    (h2 : 2 ≤ args.length)
    (hDC : ToIntegerM (args.getD 1 JSValue.undef) s4 = (Comp.ok dc, s5))
    (hb : len + ((args.length : Int) - 2)
        - spliceDeleteClamp dc (len - clampRel rs len) > maxSafe) :
    ArrayProto_splice args th st = (Comp.err (JSValue.errorObj "TypeError" "ArrayPastSafeLength"), s5) := by
  have h0 : ¬ (args.length = 0) := by omega
  have h1 : ¬ (args.length = 1) := by omega
  unfold ArrayProto_splice
  simp only [bind_def, bindE_ok hO, bindE_ok hG, bindE_ok hL, bindE_ok hRS,
    if_neg h0, if_neg h1, bindE_ok hDC, pureE_app, bindE_ok (pureE_app _ _), if_pos hb]
  rfl

/-- `ToLength` only returns values in `[0, 2^53 - 1]`. -/
theorem ToLengthM_bounds {v : JSValue} {s : St} {len : Int} {s' : St}
    (h : ToLengthM v s = (Comp.ok len, s')) : 0 ≤ len ∧ len ≤ maxSafe := by
  have hms : (0 : Int) ≤ maxSafe := by decide
  unfold ToLengthM bindE at h
  rcases hi : ToIntegerM v s with ⟨c, s1⟩
  rw [hi] at h
  cases c with
  | err e => simp at h
  | ok n =>
      have hlen : len = jsLenClamp n := by
        have := congrArg Prod.fst h
        simp [pureE] at this
        exact this.symm
      subst hlen
      cases n with
      | int i =>
          refine ⟨le_max_left 0 _, ?_⟩
          exact max_le hms (min_le_right i maxSafe)
      | posInf => exact ⟨hms, le_refl _⟩
      | negInf => exact ⟨le_refl 0, hms⟩
      | nan => exact ⟨le_refl 0, hms⟩

theorem concatLoopOverflow_spreadable (A : Nat) (E : JSValue) (rest : List JSValue) (n : Int)
    (st : St) (s1 : St) (lenProp : JSValue) (s2 : St) (len : Int) (s3 : St)
    (hSp : IsConcatSpreadableM E st = (Comp.ok true, s1))
    (hG : GetVal E "length" s1 = (Comp.ok lenProp, s2))
    (hL : ToLengthM lenProp s2 = (Comp.ok len, s3))
    (hb : n + len > maxSafe) :
    concatOuterLoop A (E :: rest) n st = (Comp.err (JSValue.errorObj "TypeError" "ArrayPastSafeLength"), s3) := by
  unfold concatOuterLoop
  simp only [bind_def, bindE_ok hSp, if_pos rfl, if_true, bindE_ok hG, bindE_ok hL, if_pos hb]
  rfl

theorem concatLoopOverflow_nonspreadable (A : Nat) (E : JSValue) (rest : List JSValue) (n : Int)
    (st : St) (s1 : St)
    (hSp : IsConcatSpreadableM E st = (Comp.ok false, s1))
    (hb : n ≥ maxSafe) :
    concatOuterLoop A (E :: rest) n st = (Comp.err (JSValue.errorObj "TypeError" "ArrayPastSafeLength"), s1) := by
  unfold concatOuterLoop
  simp only [bind_def, bindE_ok hSp, Bool.false_eq_true, if_false, if_pos hb]
  rfl

/-! ### Bounded writes of concat (claim C3, "never past the bound") -/

theorem pairEq {α : Type} {x : Comp α} {s : St} {res : Comp α} {s' : St}
    (h : (x, s) = (res, s')) : res = x ∧ s' = s :=
  ⟨(((Prod.mk.injEq _ _ _ _).mp h).1).symm, (((Prod.mk.injEq _ _ _ _).mp h).2).symm⟩

theorem hasPropV_pure (E : JSValue) (P : String) (s : St) :
    ∃ b : Bool, HasPropertyV E P s = (Comp.ok b, s) := by
  cases E <;> exact ⟨_, rfl⟩

theorem GetVal_events (E : JSValue) (P : String) (s : St) :
    ((GetVal E P s).2).events = s.events := by
  cases E with
  | obj r => exact GetM_events r P s
  | undef => rfl
  | null => rfl
  | bool b => rfl
  | num n => rfl
  | str t => rfl
  | errorObj k m => rfl

theorem IsArrayM_events (v : JSValue) (s : St) : ((IsArrayM v s).2).events = s.events := rfl

theorem IsConcatSpreadableM_events (E : JSValue) (s : St) :
    ((IsConcatSpreadableM E s).2).events = s.events := by
  cases E with
  | obj r =>
      unfold IsConcatSpreadableM
      refine bindE_events (fun s0 => GetM_events r spreadableKey s0) ?_ s
      intro a s0
      by_cases ha : a = JSValue.undef
      · rw [if_pos ha]; rfl
      · rw [if_neg ha]; rfl
  | undef => rfl
  | null => rfl
  | bool b => rfl
  | num n => rfl
  | str t => rfl
  | errorObj k m => rfl

theorem ArraySpeciesCreateM_events (O : Nat) (len : Int) (s : St) :
    ((ArraySpeciesCreateM O len s).2).events = s.events := rfl

theorem SetM_events (r : Nat) (k : String) (v : JSValue) (t : Bool) (s : St) :
    ((SetM r k v t s).2).events = s.events := by
  unfold SetM
  dsimp only
  repeat' split
  all_goals rfl

/-- Shape of `CreateDataPropertyOrThrow`: either it succeeds and logs
exactly one definition event, or it fails leaving the state untouched. -/
theorem CDP_shape (r : Nat) (k : String) (v : JSValue) (s : St) :
    (∃ s2, CreateDataPropertyOrThrowM r k v s = (Comp.ok (), s2) ∧
      s2.events = Ev.defProp r k :: s.events) ∨
    CreateDataPropertyOrThrowM r k v s
      = (Comp.err (JSValue.errorObj "TypeError" "cannot define index past non-writable length"), s) := by
  unfold CreateDataPropertyOrThrowM
  rcases hm : (if (objAt s.heap r).isArray then keyToIndex k else none) with _ | i
  · simp only [hm]
    exact Or.inl ⟨_, rfl, rfl⟩
  · simp only [hm]
    by_cases h1 : (i : Int) ≥ lengthIntOf (objAt s.heap r)
    · rw [if_pos h1]
      by_cases h2 : lengthWritable (objAt s.heap r) = true
      · rw [if_pos h2]
        exact Or.inl ⟨_, rfl, rfl⟩
      · rw [if_neg h2]
        exact Or.inr rfl
    · rw [if_neg h1]
      exact Or.inl ⟨_, rfl, rfl⟩

/-- Sanitary predicate for C3: an event is a definition of an index
strictly below the safe bound. -/
def boundedDef (ev : Ev) : Prop :=
  ∃ a : Nat, ∃ m : Int, ev = Ev.defProp a (intKey m) ∧ 0 ≤ m ∧ m < maxSafe

theorem concatInner_writes (A : Nat) (E : JSValue) :
    ∀ (rem : Nat) (k n : Int) (st : St) (res : Comp Int) (s' : St),
    0 ≤ n → n + rem ≤ maxSafe →
    concatInnerLoop A E rem k n st = (res, s') →
    (∃ pre, s'.events = pre ++ st.events ∧ ∀ ev ∈ pre, boundedDef ev) ∧
    (∀ n2, res = Comp.ok n2 → n2 = n + rem) := by
  intro rem
  induction rem with
  | zero =>
      intro k n st res s' hn hb h
      simp only [concatInnerLoop, pureE] at h
      obtain ⟨h1, h2⟩ := pairEq h
      subst h1
      subst h2
      refine ⟨⟨[], by simp, by simp⟩, ?_⟩
      intro n2 hok
      cases hok
      simp
  | succ rem ih =>
      intro k n st res s' hn hb h
      obtain ⟨b, hHas⟩ := hasPropV_pure E (intKey k) st
      simp only [concatInnerLoop, bind_def, bindE_ok hHas] at h
      cases b with
      | false =>
          simp only [Bool.false_eq_true, if_false] at h
          obtain ⟨hpre, hres⟩ := ih (k + 1) (n + 1) st res s' (by omega) (by push_cast; push_cast at hb; omega) h
          refine ⟨hpre, ?_⟩
          intro n2 hok
          have := hres n2 hok
          omega
      | true =>
          simp only [if_true] at h
          rcases hg : GetVal E (intKey k) st with ⟨cg, sg⟩
          have hge : sg.events = st.events := by rw [← GetVal_events E (intKey k) st, hg]
          cases cg with
          | err e =>
              rw [bindE_err hg] at h
              obtain ⟨h1, h2⟩ := pairEq h
              subst h2
              refine ⟨⟨[], by simp [hge], by simp⟩, ?_⟩
              intro n2 hok
              rw [h1] at hok
              cases hok
          | ok sub =>
              rw [bindE_ok hg] at h
              rcases CDP_shape A (intKey n) sub sg with ⟨s2, heq, hev⟩ | heq
              · rw [bindE_ok heq] at h
                obtain ⟨hpre, hres⟩ := ih (k + 1) (n + 1) s2 res s' (by omega) (by push_cast; push_cast at hb; omega) h
                obtain ⟨pre, hpe, hpb⟩ := hpre
                refine ⟨⟨pre ++ [Ev.defProp A (intKey n)], ?_, ?_⟩, ?_⟩
                · rw [hpe, hev, hge]
                  simp
                · intro ev hev2
                  rcases List.mem_append.mp hev2 with h3 | h3
                  · exact hpb ev h3
                  · have : ev = Ev.defProp A (intKey n) := by simpa using h3
                    subst this
                    refine ⟨A, n, rfl, hn, ?_⟩
                    push_cast at hb
                    omega
                · intro n2 hok
                  have := hres n2 hok
                  omega
              · rw [bindE_err heq] at h
                obtain ⟨h1, h2⟩ := pairEq h
                subst h2
                refine ⟨⟨[], by simp [hge], by simp⟩, ?_⟩
                intro n2 hok
                rw [h1] at hok
                cases hok

theorem concatOuter_writes (A : Nat) :
    ∀ (items : List JSValue) (n : Int) (st : St) (res : Comp Int) (s' : St),
    0 ≤ n →
    concatOuterLoop A items n st = (res, s') →
    ∃ pre, s'.events = pre ++ st.events ∧ ∀ ev ∈ pre, boundedDef ev := by
  intro items
  induction items with
  | nil =>
      intro n st res s' hn h
      simp only [concatOuterLoop, pureE] at h
      obtain ⟨h1, h2⟩ := pairEq h
      subst h2
      exact ⟨[], by simp, by simp⟩
  | cons E rest ih =>
      intro n st res s' hn h
      rcases hsp : IsConcatSpreadableM E st with ⟨csp, ssp⟩
      have hspe : ssp.events = st.events := by rw [← IsConcatSpreadableM_events E st, hsp]
      simp only [concatOuterLoop, bind_def] at h
      cases csp with
      | err e =>
          rw [bindE_err hsp] at h
          obtain ⟨h1, h2⟩ := pairEq h
          subst h2
          exact ⟨[], by simp [hspe], by simp⟩
      | ok b =>
          rw [bindE_ok hsp] at h
          cases b with
          | true =>
              simp only [if_true, bind_def] at h
              rcases hg : GetVal E "length" ssp with ⟨cg, sg⟩
              have hge : sg.events = ssp.events := by rw [← GetVal_events E "length" ssp, hg]
              cases cg with
              | err e =>
                  rw [bindE_err hg] at h
                  obtain ⟨h1, h2⟩ := pairEq h
                  subst h2
                  exact ⟨[], by simp [hge, hspe], by simp⟩
              | ok lenProp =>
                  rw [bindE_ok hg] at h
                  rcases hl : ToLengthM lenProp sg with ⟨cl, sl⟩
                  have hle : sl.events = sg.events := by rw [← ToLengthM_events lenProp sg, hl]
                  cases cl with
                  | err e =>
                      rw [bindE_err hl] at h
                      obtain ⟨h1, h2⟩ := pairEq h
                      subst h2
                      exact ⟨[], by simp [hle, hge, hspe], by simp⟩
                  | ok len =>
                      rw [bindE_ok hl] at h
                      obtain ⟨hl0, hlm⟩ := ToLengthM_bounds hl
                      by_cases hov : n + len > maxSafe
                      · rw [if_pos hov] at h
                        obtain ⟨h1, h2⟩ := pairEq h
                        subst h2
                        exact ⟨[], by simp [hle, hge, hspe], by simp⟩
                      · rw [if_neg hov] at h
                        rcases hin : concatInnerLoop A E len.toNat 0 n sl with ⟨cin, sin2⟩
                        have htn : (len.toNat : Int) = len := Int.toNat_of_nonneg hl0
                        obtain ⟨⟨pre1, hpe1, hpb1⟩, hres1⟩ :=
                          concatInner_writes A E len.toNat 0 n sl cin sin2 hn (by omega) hin
                        cases cin with
                        | err e =>
                            rw [bindE_err hin] at h
                            obtain ⟨h1, h2⟩ := pairEq h
                            subst h2
                            exact ⟨pre1, by rw [hpe1, hle, hge, hspe], hpb1⟩
                        | ok n2 =>
                            rw [bindE_ok hin] at h
                            have hn2 : n2 = n + len.toNat := hres1 n2 rfl
                            obtain ⟨pre2, hpe2, hpb2⟩ :=
                              ih n2 sin2 res s' (by omega) h
                            refine ⟨pre2 ++ pre1, ?_, ?_⟩
                            · rw [hpe2, hpe1, hle, hge, hspe]
                              simp
                            · intro ev hev
                              rcases List.mem_append.mp hev with h3 | h3
                              · exact hpb2 ev h3
                              · exact hpb1 ev h3
          | false =>
              simp only [Bool.false_eq_true, if_false, bind_def] at h
              by_cases hov : n ≥ maxSafe
              · rw [if_pos hov] at h
                obtain ⟨h1, h2⟩ := pairEq h
                subst h2
                exact ⟨[], by simp [hspe], by simp⟩
              · rw [if_neg hov] at h
                rcases CDP_shape A (intKey n) E ssp with ⟨s2, heq, hev⟩ | heq
                · rw [bindE_ok heq] at h
                  obtain ⟨pre2, hpe2, hpb2⟩ := ih (n + 1) s2 res s' (by omega) h
                  refine ⟨pre2 ++ [Ev.defProp A (intKey n)], ?_, ?_⟩
                  · rw [hpe2, hev, hspe]
                    simp
                  · intro ev hev2
                    rcases List.mem_append.mp hev2 with h3 | h3
                    · exact hpb2 ev h3
                    · have : ev = Ev.defProp A (intKey n) := by simpa using h3
                      subst this
                      exact ⟨A, n, rfl, hn, by omega⟩
                · rw [bindE_err heq] at h
                  obtain ⟨h1, h2⟩ := pairEq h
                  subst h2
                  exact ⟨[], by simp [hspe], by simp⟩

/-- Every property definition performed by `Array.prototype.concat` is at
an index strictly below `2^53 - 1`: the method throws before writing any
element past the bound. -/
theorem concat_writes_bounded (args : List JSValue) (th : JSValue) (st : St)
    (res : Comp JSValue) (s' : St)
    (h : ArrayProto_concat args th st = (res, s')) :
    ∃ pre, s'.events = pre ++ st.events ∧ ∀ ev ∈ pre, boundedDef ev := by
  unfold ArrayProto_concat at h
  simp only [bind_def] at h
  rcases ho : ToObjectM th st with ⟨co, so⟩
  have hoe : so.events = st.events := by rw [← ToObjectM_events th st, ho]
  cases co with
  | err e =>
      rw [bindE_err ho] at h
      obtain ⟨h1, h2⟩ := pairEq h
      subst h2
      exact ⟨[], by simp [hoe], by simp⟩
  | ok O =>
      rw [bindE_ok ho] at h
      rcases ha : ArraySpeciesCreateM O 0 so with ⟨ca, sa⟩
      have hae : sa.events = so.events := by rw [← ArraySpeciesCreateM_events O 0 so, ha]
      cases ca with
      | err e =>
          rw [bindE_err ha] at h
          obtain ⟨h1, h2⟩ := pairEq h
          subst h2
          exact ⟨[], by simp [hae, hoe], by simp⟩
      | ok A =>
          rw [bindE_ok ha] at h
          rcases hl : concatOuterLoop A (JSValue.obj O :: args) 0 sa with ⟨cl, sl⟩
          obtain ⟨pre, hpe, hpb⟩ :=
            concatOuter_writes A (JSValue.obj O :: args) 0 sa cl sl (le_refl 0) hl
          cases cl with
          | err e =>
              rw [bindE_err hl] at h
              obtain ⟨h1, h2⟩ := pairEq h
              subst h2
              exact ⟨pre, by rw [hpe, hae, hoe], hpb⟩
          | ok n =>
              rw [bindE_ok hl] at h
              rcases hs : SetM A "length" (JSValue.num (JSNum.int n)) true sl with ⟨cs, ss⟩
              have hse : ss.events = sl.events := by
                rw [← SetM_events A "length" (JSValue.num (JSNum.int n)) true sl, hs]
              cases cs with
              | err e =>
                  rw [bindE_err hs] at h
                  obtain ⟨h1, h2⟩ := pairEq h
                  subst h2
                  exact ⟨pre, by rw [hse, hpe, hae, hoe], hpb⟩
              | ok u =>
                  rw [bindE_ok hs] at h
                  simp only [pureE] at h
                  obtain ⟨h1, h2⟩ := pairEq h
                  subst h2
                  exact ⟨pre, by rw [hse, hpe, hae, hoe], hpb⟩

/-- Claim C5: every Array.prototype method that consults the receiver's
length performs `Get(O, "length")` first and `ToLength` on its result
second: the state the getter produced is the state the coercion starts
from (so the getter's side effects come first), and an abrupt completion
of either step is returned unchanged, aborting the method in exactly the
state the failing step left.  One conjunct pair per method: map, filter,
copyWithin, fill, flat, flatMap, pop, shift, push, slice, splice,
unshift, sort (whose comparator check precedes the receiver coercion)
and concat (which reads each spreadable element's length, the receiver
being the first such element). -/
theorem claim_C5 :
    (∀ (args : List JSValue) (th : JSValue) (st : St) (O : Nat) (s1 : St)
      (e : JSValue) (s2 : St), ToObjectM th st = (Comp.ok O, s1) →
      GetM O "length" s1 = (Comp.err e, s2) →
      ArrayProto_map args th st = (Comp.err e, s2)) ∧
    (∀ (args : List JSValue) (th : JSValue) (st : St) (O : Nat) (s1 : St)
      (lenProp : JSValue) (s2 : St) (e : JSValue) (s3 : St),
      ToObjectM th st = (Comp.ok O, s1) → GetM O "length" s1 = (Comp.ok lenProp, s2) →
      ToLengthM lenProp s2 = (Comp.err e, s3) →
      ArrayProto_map args th st = (Comp.err e, s3)) ∧
    (∀ (args : List JSValue) (th : JSValue) (st : St) (O : Nat) (s1 : St)
      (e : JSValue) (s2 : St), ToObjectM th st = (Comp.ok O, s1) →
      GetM O "length" s1 = (Comp.err e, s2) →
      ArrayProto_filter args th st = (Comp.err e, s2)) ∧
    (∀ (args : List JSValue) (th : JSValue) (st : St) (O : Nat) (s1 : St)
      (lenProp : JSValue) (s2 : St) (e : JSValue) (s3 : St),
      ToObjectM th st = (Comp.ok O, s1) → GetM O "length" s1 = (Comp.ok lenProp, s2) →
      ToLengthM lenProp s2 = (Comp.err e, s3) →
      ArrayProto_filter args th st = (Comp.err e, s3)) ∧
    (∀ (args : List JSValue) (th : JSValue) (st : St) (O : Nat) (s1 : St)
      (e : JSValue) (s2 : St), ToObjectM th st = (Comp.ok O, s1) →
      GetM O "length" s1 = (Comp.err e, s2) →
      ArrayProto_copyWithin args th st = (Comp.err e, s2)) ∧
    (∀ (args : List JSValue) (th : JSValue) (st : St) (O : Nat) (s1 : St)
      (lenProp : JSValue) (s2 : St) (e : JSValue) (s3 : St),
      ToObjectM th st = (Comp.ok O, s1) → GetM O "length" s1 = (Comp.ok lenProp, s2) →
      ToLengthM lenProp s2 = (Comp.err e, s3) →
      ArrayProto_copyWithin args th st = (Comp.err e, s3)) ∧
    (∀ (args : List JSValue) (th : JSValue) (st : St) (O : Nat) (s1 : St)
      (e : JSValue) (s2 : St), ToObjectM th st = (Comp.ok O, s1) →
      GetM O "length" s1 = (Comp.err e, s2) →
      ArrayProto_fill args th st = (Comp.err e, s2)) ∧
    (∀ (args : List JSValue) (th : JSValue) (st : St) (O : Nat) (s1 : St)
      (lenProp : JSValue) (s2 : St) (e : JSValue) (s3 : St),
      ToObjectM th st = (Comp.ok O, s1) → GetM O "length" s1 = (Comp.ok lenProp, s2) →
      ToLengthM lenProp s2 = (Comp.err e, s3) →
      ArrayProto_fill args th st = (Comp.err e, s3)) ∧
    (∀ (fuel : Nat) (args : List JSValue) (th : JSValue) (st : St) (O : Nat) (s1 : St)
      (e : JSValue) (s2 : St), ToObjectM th st = (Comp.ok O, s1) →
      GetM O "length" s1 = (Comp.err e, s2) →
      ArrayProto_flat fuel args th st = (Comp.err e, s2)) ∧
    (∀ (fuel : Nat) (args : List JSValue) (th : JSValue) (st : St) (O : Nat) (s1 : St)
      (lenProp : JSValue) (s2 : St) (e : JSValue) (s3 : St),
      ToObjectM th st = (Comp.ok O, s1) → GetM O "length" s1 = (Comp.ok lenProp, s2) →
      ToLengthM lenProp s2 = (Comp.err e, s3) →
      ArrayProto_flat fuel args th st = (Comp.err e, s3)) ∧
    (∀ (fuel : Nat) (args : List JSValue) (th : JSValue) (st : St) (O : Nat) (s1 : St)
      (e : JSValue) (s2 : St), ToObjectM th st = (Comp.ok O, s1) →
      GetM O "length" s1 = (Comp.err e, s2) →
      ArrayProto_flatMap fuel args th st = (Comp.err e, s2)) ∧
    (∀ (fuel : Nat) (args : List JSValue) (th : JSValue) (st : St) (O : Nat) (s1 : St)
      (lenProp : JSValue) (s2 : St) (e : JSValue) (s3 : St),
      ToObjectM th st = (Comp.ok O, s1) → GetM O "length" s1 = (Comp.ok lenProp, s2) →
      ToLengthM lenProp s2 = (Comp.err e, s3) →
      ArrayProto_flatMap fuel args th st = (Comp.err e, s3)) ∧
    (∀ (th : JSValue) (st : St) (O : Nat) (s1 : St) (e : JSValue) (s2 : St),
      ToObjectM th st = (Comp.ok O, s1) → GetM O "length" s1 = (Comp.err e, s2) →
      ArrayProto_pop th st = (Comp.err e, s2)) ∧
    (∀ (th : JSValue) (st : St) (O : Nat) (s1 : St) (lenProp : JSValue) (s2 : St)
      (e : JSValue) (s3 : St), ToObjectM th st = (Comp.ok O, s1) →
      GetM O "length" s1 = (Comp.ok lenProp, s2) → ToLengthM lenProp s2 = (Comp.err e, s3) →
      ArrayProto_pop th st = (Comp.err e, s3)) ∧
    (∀ (th : JSValue) (st : St) (O : Nat) (s1 : St) (e : JSValue) (s2 : St),
      ToObjectM th st = (Comp.ok O, s1) → GetM O "length" s1 = (Comp.err e, s2) →
      ArrayProto_shift th st = (Comp.err e, s2)) ∧
    (∀ (th : JSValue) (st : St) (O : Nat) (s1 : St) (lenProp : JSValue) (s2 : St)
      (e : JSValue) (s3 : St), ToObjectM th st = (Comp.ok O, s1) →
      GetM O "length" s1 = (Comp.ok lenProp, s2) → ToLengthM lenProp s2 = (Comp.err e, s3) →
      ArrayProto_shift th st = (Comp.err e, s3)) ∧
    (∀ (args : List JSValue) (th : JSValue) (st : St) (O : Nat) (s1 : St)
      (e : JSValue) (s2 : St), ToObjectM th st = (Comp.ok O, s1) →
      GetM O "length" s1 = (Comp.err e, s2) →
      ArrayProto_push args th st = (Comp.err e, s2)) ∧
    (∀ (args : List JSValue) (th : JSValue) (st : St) (O : Nat) (s1 : St)
      (lenProp : JSValue) (s2 : St) (e : JSValue) (s3 : St),
      ToObjectM th st = (Comp.ok O, s1) → GetM O "length" s1 = (Comp.ok lenProp, s2) →
      ToLengthM lenProp s2 = (Comp.err e, s3) →
      ArrayProto_push args th st = (Comp.err e, s3)) ∧
    (∀ (args : List JSValue) (th : JSValue) (st : St) (O : Nat) (s1 : St)
      (e : JSValue) (s2 : St), ToObjectM th st = (Comp.ok O, s1) →
      GetM O "length" s1 = (Comp.err e, s2) →
      ArrayProto_slice args th st = (Comp.err e, s2)) ∧
    (∀ (args : List JSValue) (th : JSValue) (st : St) (O : Nat) (s1 : St)
      (lenProp : JSValue) (s2 : St) (e : JSValue) (s3 : St),
      ToObjectM th st = (Comp.ok O, s1) → GetM O "length" s1 = (Comp.ok lenProp, s2) →
      ToLengthM lenProp s2 = (Comp.err e, s3) →
      ArrayProto_slice args th st = (Comp.err e, s3)) ∧
    (∀ (args : List JSValue) (th : JSValue) (st : St) (O : Nat) (s1 : St)
      (e : JSValue) (s2 : St), ToObjectM th st = (Comp.ok O, s1) →
      GetM O "length" s1 = (Comp.err e, s2) →
      ArrayProto_splice args th st = (Comp.err e, s2)) ∧
    (∀ (args : List JSValue) (th : JSValue) (st : St) (O : Nat) (s1 : St)
      (lenProp : JSValue) (s2 : St) (e : JSValue) (s3 : St),
      ToObjectM th st = (Comp.ok O, s1) → GetM O "length" s1 = (Comp.ok lenProp, s2) →
      ToLengthM lenProp s2 = (Comp.err e, s3) →
      ArrayProto_splice args th st = (Comp.err e, s3)) ∧
    (∀ (args : List JSValue) (th : JSValue) (st : St) (O : Nat) (s1 : St)
      (e : JSValue) (s2 : St), ToObjectM th st = (Comp.ok O, s1) →
      GetM O "length" s1 = (Comp.err e, s2) →
      ArrayProto_unshift args th st = (Comp.err e, s2)) ∧
    (∀ (args : List JSValue) (th : JSValue) (st : St) (O : Nat) (s1 : St)
      (lenProp : JSValue) (s2 : St) (e : JSValue) (s3 : St),
      ToObjectM th st = (Comp.ok O, s1) → GetM O "length" s1 = (Comp.ok lenProp, s2) →
      ToLengthM lenProp s2 = (Comp.err e, s3) →
      ArrayProto_unshift args th st = (Comp.err e, s3)) ∧
    (∀ (comparefn th : JSValue) (st : St) (O : Nat) (s1 : St) (e : JSValue) (s2 : St),
      (comparefn = JSValue.undef ∨ isCallableSt st comparefn = true) →
      ToObjectM th st = (Comp.ok O, s1) → GetM O "length" s1 = (Comp.err e, s2) →
      ArrayProto_sort comparefn th st = (Comp.err e, s2)) ∧
    (∀ (comparefn th : JSValue) (st : St) (O : Nat) (s1 : St) (lenProp : JSValue)
      (s2 : St) (e : JSValue) (s3 : St),
      (comparefn = JSValue.undef ∨ isCallableSt st comparefn = true) →
      ToObjectM th st = (Comp.ok O, s1) → GetM O "length" s1 = (Comp.ok lenProp, s2) →
      ToLengthM lenProp s2 = (Comp.err e, s3) →
      ArrayProto_sort comparefn th st = (Comp.err e, s3)) ∧
    (∀ (args : List JSValue) (th : JSValue) (st : St) (O A : Nat) (s1 s2 s3 : St)
      (e : JSValue) (s4 : St), ToObjectM th st = (Comp.ok O, s1) →
      ArraySpeciesCreateM O 0 s1 = (Comp.ok A, s2) →
      IsConcatSpreadableM (JSValue.obj O) s2 = (Comp.ok true, s3) →
      GetM O "length" s3 = (Comp.err e, s4) →
      ArrayProto_concat args th st = (Comp.err e, s4)) ∧
    (∀ (args : List JSValue) (th : JSValue) (st : St) (O A : Nat) (s1 s2 s3 : St)
      (lenProp : JSValue) (s4 : St) (e : JSValue) (s5 : St),
      ToObjectM th st = (Comp.ok O, s1) → ArraySpeciesCreateM O 0 s1 = (Comp.ok A, s2) →
      IsConcatSpreadableM (JSValue.obj O) s2 = (Comp.ok true, s3) →
      GetM O "length" s3 = (Comp.ok lenProp, s4) → ToLengthM lenProp s4 = (Comp.err e, s5) →
      ArrayProto_concat args th st = (Comp.err e, s5)) :=
  ⟨getAbrupt_map, lenAbrupt_map, getAbrupt_filter, lenAbrupt_filter, getAbrupt_copyWithin, lenAbrupt_copyWithin, getAbrupt_fill, lenAbrupt_fill, getAbrupt_flat, lenAbrupt_flat, getAbrupt_flatMap, lenAbrupt_flatMap, getAbrupt_pop, lenAbrupt_pop, getAbrupt_shift, lenAbrupt_shift, getAbrupt_push, lenAbrupt_push, getAbrupt_slice, lenAbrupt_slice, getAbrupt_splice, lenAbrupt_splice, getAbrupt_unshift, lenAbrupt_unshift, getAbrupt_sort, lenAbrupt_sort, getAbrupt_concat, lenAbrupt_concat⟩

/-- A receiver whose `length` getter throws the string `"boom"`. -/
def wGet : St :=
  { heap := [{ props := [("length", PropDesc.accessor (HostProg.throwV (JSValue.str "boom")))],
               isArray := false, callBody := none, valueOfBody := none }], events := [] }

/-- A receiver whose `length` is an object whose `valueOf` throws the
string `"coerce"`, so `ToLength` throws during coercion. -/
def wCoerce : St :=
  { heap := [{ props := [("length", PropDesc.data (JSValue.obj 1) true)],
               isArray := false, callBody := none, valueOfBody := none },
             { props := [], isArray := false, callBody := none,
               valueOfBody := some (HostProg.throwV (JSValue.str "coerce")) }], events := [] }

theorem claim_C5_witness :
    ArrayProto_map [] (JSValue.obj 0) wGet = (Comp.err (JSValue.str "boom"), wGet) ∧
    ArrayProto_map [] (JSValue.obj 0) wCoerce = (Comp.err (JSValue.str "coerce"), wCoerce) :=
  ⟨claim_C5.1 [] (JSValue.obj 0) wGet 0 wGet (JSValue.str "boom") wGet rfl rfl,
   claim_C5.2.1 [] (JSValue.obj 0) wCoerce 0 wCoerce (JSValue.obj 1) wCoerce
     (JSValue.str "coerce") wCoerce rfl rfl rfl⟩

/-- Claim C4: with a non-callable `f`, filter, map and flatMap throw a
TypeError only after the receiver's length has been read and coerced
(their result state is exactly the post-coercion state) while sort throws
before the receiver is converted to an object (its result state is the
original state, whatever the receiver is); in each case the event log
gains no entry, so `f` is never invoked. -/
theorem claim_C4 :
    (∀ (args : List JSValue) (th : JSValue) (st : St) (O : Nat) (s1 : St)
      (lenProp : JSValue) (s2 : St) (len : Int) (s3 : St),
      ToObjectM th st = (Comp.ok O, s1) → GetM O "length" s1 = (Comp.ok lenProp, s2) →
      ToLengthM lenProp s2 = (Comp.ok len, s3) →
      isCallableSt s3 (args.getD 0 JSValue.undef) = false →
      ArrayProto_filter args th st
          = (Comp.err (JSValue.errorObj "TypeError" "NotAFunction"), s3) ∧
        s3.events = st.events) ∧
    (∀ (args : List JSValue) (th : JSValue) (st : St) (O : Nat) (s1 : St)
      (lenProp : JSValue) (s2 : St) (len : Int) (s3 : St),
      ToObjectM th st = (Comp.ok O, s1) → GetM O "length" s1 = (Comp.ok lenProp, s2) →
      ToLengthM lenProp s2 = (Comp.ok len, s3) →
      isCallableSt s3 (args.getD 0 JSValue.undef) = false →
      ArrayProto_map args th st
          = (Comp.err (JSValue.errorObj "TypeError" "callbackfn is not callable"), s3) ∧
        s3.events = st.events) ∧
    (∀ (fuel : Nat) (args : List JSValue) (th : JSValue) (st : St) (O : Nat) (s1 : St)
      (lenProp : JSValue) (s2 : St) (len : Int) (s3 : St),
      ToObjectM th st = (Comp.ok O, s1) → GetM O "length" s1 = (Comp.ok lenProp, s2) →
      ToLengthM lenProp s2 = (Comp.ok len, s3) →
      isCallableSt s3 (args.getD 0 JSValue.undef) = false →
      ArrayProto_flatMap fuel args th st
          = (Comp.err (JSValue.errorObj "TypeError" ""), s3) ∧
        s3.events = st.events) ∧
    (∀ (comparefn th : JSValue) (st : St), comparefn ≠ JSValue.undef →
      isCallableSt st comparefn = false →
      ArrayProto_sort comparefn th st
        = (Comp.err (JSValue.errorObj "TypeError" "NotAFunction"), st)) :=
  ⟨notCallable_filter, notCallable_map, notCallable_flatMap, notCallable_sort⟩

/-- An ordinary (non-array) receiver whose `length` is the data value 0. -/
def wLen0 : St :=
  { heap := [{ props := [("length", dataN 0)], isArray := false,
               callBody := none, valueOfBody := none }], events := [] }

theorem claim_C4_witness :
    (ArrayProto_map [] (JSValue.obj 0) wLen0
        = (Comp.err (JSValue.errorObj "TypeError" "callbackfn is not callable"), wLen0) ∧
      wLen0.events = wLen0.events) ∧
    ArrayProto_sort (JSValue.num (JSNum.int 1)) JSValue.null wLen0
      = (Comp.err (JSValue.errorObj "TypeError" "NotAFunction"), wLen0) :=
  ⟨claim_C4.2.1 [] (JSValue.obj 0) wLen0 0 wLen0 (JSValue.num (JSNum.int 0)) wLen0 0 wLen0
     rfl rfl rfl rfl,
   claim_C4.2.2.2 (JSValue.num (JSNum.int 1)) JSValue.null wLen0 (by decide) rfl⟩

/-- Claim C9: when the receiver's length coerces to 0, pop and shift
return `undefined` but still perform the observable
`Set(O, "length", 0, throw)` on the post-coercion state (the method's
final state is that Set's final state), and an abrupt completion of that
Set propagates out of the method. -/
theorem claim_C9 :
    (∀ (th : JSValue) (st : St) (O : Nat) (s1 : St) (lenProp : JSValue) (s2 s3 s4 : St),
      ToObjectM th st = (Comp.ok O, s1) → GetM O "length" s1 = (Comp.ok lenProp, s2) →
      ToLengthM lenProp s2 = (Comp.ok 0, s3) →
      SetM O "length" (JSValue.num (JSNum.int 0)) true s3 = (Comp.ok (), s4) →
      ArrayProto_pop th st = (Comp.ok JSValue.undef, s4)) ∧
    (∀ (th : JSValue) (st : St) (O : Nat) (s1 : St) (lenProp : JSValue) (s2 s3 : St)
      (e : JSValue) (s4 : St),
      ToObjectM th st = (Comp.ok O, s1) → GetM O "length" s1 = (Comp.ok lenProp, s2) →
      ToLengthM lenProp s2 = (Comp.ok 0, s3) →
      SetM O "length" (JSValue.num (JSNum.int 0)) true s3 = (Comp.err e, s4) →
      ArrayProto_pop th st = (Comp.err e, s4)) ∧
    (∀ (th : JSValue) (st : St) (O : Nat) (s1 : St) (lenProp : JSValue) (s2 s3 s4 : St),
      ToObjectM th st = (Comp.ok O, s1) → GetM O "length" s1 = (Comp.ok lenProp, s2) →
      ToLengthM lenProp s2 = (Comp.ok 0, s3) →
      SetM O "length" (JSValue.num (JSNum.int 0)) true s3 = (Comp.ok (), s4) →
      ArrayProto_shift th st = (Comp.ok JSValue.undef, s4)) ∧
    (∀ (th : JSValue) (st : St) (O : Nat) (s1 : St) (lenProp : JSValue) (s2 s3 : St)
      (e : JSValue) (s4 : St),
      ToObjectM th st = (Comp.ok O, s1) → GetM O "length" s1 = (Comp.ok lenProp, s2) →
      ToLengthM lenProp s2 = (Comp.ok 0, s3) →
      SetM O "length" (JSValue.num (JSNum.int 0)) true s3 = (Comp.err e, s4) →
      ArrayProto_shift th st = (Comp.err e, s4)) :=
  ⟨popZero_set_ok, popZero_set_err, shiftZero_set_ok, shiftZero_set_err⟩

/-- A receiver with a non-writable zero `length`, on which the final Set
of pop throws. -/
def wFrozen : St :=
  { heap := [{ props := [("length", PropDesc.data (JSValue.num (JSNum.int 0)) false)],
               isArray := false, callBody := none, valueOfBody := none }], events := [] }

theorem claim_C9_witness :
    ArrayProto_pop (JSValue.obj 0) wLen0 = (Comp.ok JSValue.undef, wLen0) ∧
    ArrayProto_pop (JSValue.obj 0) wFrozen
      = (Comp.err (JSValue.errorObj "TypeError" "Cannot set property length"), wFrozen) :=
  ⟨claim_C9.1 (JSValue.obj 0) wLen0 0 wLen0 (JSValue.num (JSNum.int 0)) wLen0 wLen0 wLen0
     rfl rfl rfl (by decide),
   claim_C9.2.1 (JSValue.obj 0) wFrozen 0 wFrozen (JSValue.num (JSNum.int 0)) wFrozen
     wFrozen (JSValue.errorObj "TypeError" "Cannot set property length") wFrozen
     rfl rfl rfl (by decide)⟩

/-- Claim C3: the safe-length overflow guards.  push throws a TypeError
when `len + argCount > 2^53 - 1` with its final state exactly the
post-coercion state (so nothing has been written); unshift does the same
when additionally `argCount > 0`; splice does when
`len + insertCount - actualDeleteCount > 2^53 - 1`; concat's element loop
throws when the running target index `n` would pass the bound (both the
spreadable `n + len > 2^53 - 1` and the non-spreadable `n >= 2^53 - 1`
checks), and every property definition concat ever performs is at an
index strictly below `2^53 - 1`. -/
theorem claim_C3 :
    (∀ (items : List JSValue) (th : JSValue) (st : St) (O : Nat) (s1 : St)
      (lenProp : JSValue) (s2 : St) (len : Int) (s3 : St),
      ToObjectM th st = (Comp.ok O, s1) → GetM O "length" s1 = (Comp.ok lenProp, s2) →
      ToLengthM lenProp s2 = (Comp.ok len, s3) →
      len + (items.length : Int) > maxSafe →
      ArrayProto_push items th st
        = (Comp.err (JSValue.errorObj "TypeError" "ArrayPastSafeLength"), s3)) ∧
    (∀ (args : List JSValue) (th : JSValue) (st : St) (O : Nat) (s1 : St)
      (lenProp : JSValue) (s2 : St) (len : Int) (s3 : St),
      ToObjectM th st = (Comp.ok O, s1) → GetM O "length" s1 = (Comp.ok lenProp, s2) →
      ToLengthM lenProp s2 = (Comp.ok len, s3) →
      (args.length : Int) > 0 → len + (args.length : Int) > maxSafe →
      ArrayProto_unshift args th st
        = (Comp.err (JSValue.errorObj "TypeError" "ArrayPastSafeLength"), s3)) ∧
    (∀ (args : List JSValue) (th : JSValue) (st : St) (O : Nat) (s1 : St)
      (lenProp : JSValue) (s2 : St) (len : Int) (s3 : St) (rs : JSNum) (s4 : St)
      (dc : JSNum) (s5 : St),
      ToObjectM th st = (Comp.ok O, s1) → GetM O "length" s1 = (Comp.ok lenProp, s2) →
      ToLengthM lenProp s2 = (Comp.ok len, s3) →
      ToIntegerM (args.getD 0 JSValue.undef) s3 = (Comp.ok rs, s4) →
      2 ≤ args.length →
      ToIntegerM (args.getD 1 JSValue.undef) s4 = (Comp.ok dc, s5) →
      len + ((args.length : Int) - 2)
          - spliceDeleteClamp dc (len - clampRel rs len) > maxSafe →
      ArrayProto_splice args th st
        = (Comp.err (JSValue.errorObj "TypeError" "ArrayPastSafeLength"), s5)) ∧
    (∀ (A : Nat) (E : JSValue) (rest : List JSValue) (n : Int) (st : St) (s1 : St)
      (lenProp : JSValue) (s2 : St) (len : Int) (s3 : St),
      IsConcatSpreadableM E st = (Comp.ok true, s1) →
      GetVal E "length" s1 = (Comp.ok lenProp, s2) →
      ToLengthM lenProp s2 = (Comp.ok len, s3) →
      n + len > maxSafe →
      concatOuterLoop A (E :: rest) n st
        = (Comp.err (JSValue.errorObj "TypeError" "ArrayPastSafeLength"), s3)) ∧
    (∀ (A : Nat) (E : JSValue) (rest : List JSValue) (n : Int) (st : St) (s1 : St),
      IsConcatSpreadableM E st = (Comp.ok false, s1) → n ≥ maxSafe →
      concatOuterLoop A (E :: rest) n st
        = (Comp.err (JSValue.errorObj "TypeError" "ArrayPastSafeLength"), s1)) ∧
    (∀ (args : List JSValue) (th : JSValue) (st : St) (res : Comp JSValue) (s' : St),
      ArrayProto_concat args th st = (res, s') →
      ∃ pre, s'.events = pre ++ st.events ∧ ∀ ev ∈ pre, boundedDef ev) :=
  ⟨overflow_push, overflow_unshift, overflow_splice, concatLoopOverflow_spreadable,
   concatLoopOverflow_nonspreadable, concat_writes_bounded⟩

/-- An ordinary receiver whose `length` is already `2^53 - 1`. -/
def wBig : St :=
  { heap := [{ props := [("length", PropDesc.data (JSValue.num (JSNum.int maxSafe)) true)],
               isArray := false, callBody := none, valueOfBody := none }], events := [] }

theorem claim_C3_witness :
    ArrayProto_push [JSValue.undef] (JSValue.obj 0) wBig
      = (Comp.err (JSValue.errorObj "TypeError" "ArrayPastSafeLength"), wBig) :=
  claim_C3.1 [JSValue.undef] (JSValue.obj 0) wBig 0 wBig
    (JSValue.num (JSNum.int maxSafe)) wBig maxSafe wBig rfl rfl (by decide) (by decide)

/-! ### The CLI shell (claim C6), from src/unnamed/part_000 -/

/-- `Abstract.Type(v) === 'Object'`. -/
def isObjectType : JSValue → Bool
  | JSValue.obj _ => true
  | JSValue.errorObj _ _ => true
  | _ => false

/-- How the CLI stringifies the carried value before writing it to
stderr. -/
inductive StderrVia where
  | errorProtoToString
  | inspected
deriving DecidableEq, Repr

/-- Exit status plus what, if anything, was written to stderr. -/
structure CliOutcome where
  exitCode : Nat
  stderrVia : Option StderrVia
deriving DecidableEq, Repr

/-- Input-file result handling of the CLI (src/unnamed/part_000 lines
192-204): an abrupt completion writes the carried value to stderr —
stringified by calling the realm's intrinsic `Error.prototype.toString`
when the value is an Object, by `inspect` otherwise — and exits with
status 1; a normal completion exits with status 0.  The two stringifiers
themselves are host I/O and are represented by the `StderrVia` tag. -/
def cliHandleResult (result : Comp JSValue) : CliOutcome :=
  match result with
  | Comp.err v =>
      { exitCode := 1,
        stderrVia := some (if isObjectType v then StderrVia.errorProtoToString
                           else StderrVia.inspected) }
  | Comp.ok _ => { exitCode := 0, stderrVia := none }

/-- Claim C6: an uncaught abrupt completion makes the CLI exit with
status 1, stringifying the carried value through the intrinsic
`Error.prototype.toString` exactly when the value is an Object and
through `inspect` otherwise; a normal completion exits with status 0
without writing to stderr. -/
theorem claim_C6 :
    (∀ v : JSValue, isObjectType v = true →
      cliHandleResult (Comp.err v)
        = { exitCode := 1, stderrVia := some StderrVia.errorProtoToString }) ∧
    (∀ v : JSValue, isObjectType v = false →
      cliHandleResult (Comp.err v)
        = { exitCode := 1, stderrVia := some StderrVia.inspected }) ∧
    (∀ a : JSValue, cliHandleResult (Comp.ok a) = { exitCode := 0, stderrVia := none }) := by
  refine ⟨?_, ?_, ?_⟩
  · intro v h
    simp [cliHandleResult, h]
  · intro v h
    simp [cliHandleResult, h]
  · intro a
    rfl

theorem claim_C6_witness :
    cliHandleResult (Comp.err (JSValue.obj 0))
        = { exitCode := 1, stderrVia := some StderrVia.errorProtoToString } ∧
      cliHandleResult (Comp.err (JSValue.str "oops"))
        = { exitCode := 1, stderrVia := some StderrVia.inspected } :=
  ⟨claim_C6.1 (JSValue.obj 0) rfl, claim_C6.2.1 (JSValue.str "oops") rfl⟩

/-! ### The CLI resolveImportedModule hook (claim C7) -/

/-- A parsed module record, identified by its heap position in
`RealmSt.modules`. -/
structure ModuleRecord where
  specifier : String
deriving DecidableEq, Repr

/-- The realm-side state the hook manipulates: created modules, the
per-realm `moduleCache` keyed by resolved path, and the optional
`moduleEntry`. -/
structure RealmSt where
  modules : List ModuleRecord
  moduleCache : List (String × Nat)
  moduleEntry : Option Nat
deriving DecidableEq, Repr

/-- `realm.createSourceTextModule(resolved, source)`: allocates a fresh
module record (parsing is host work whose result no claim consults). -/
def createSourceTextModule (st : RealmSt) (specifier : String) : Nat × RealmSt :=
  (st.modules.length, { st with modules := st.modules ++ [{ specifier := specifier }] })

/-- The `realm.moduleEntry && resolved === realm.moduleEntry.specifier`
test of src/unnamed/part_000 line 30, as the entry id it returns. -/
def entryMatch (st : RealmSt) (resolved : String) : Option Nat :=
  match st.moduleEntry with
  | some id =>
      if (st.modules.get? id).map (fun m => m.specifier) = some resolved then some id
      else none
  | none => none

/-- The CLI's `resolveImportedModule` hook (src/unnamed/part_000 lines
28-43).  `resolve` abstracts the pure path computation
`path.resolve(path.dirname(referencingModule.specifier), specifier)` and
`fsPaths` abstracts `fs.existsSync`: the entry module is returned when the
resolved path names it, a cached module is returned on a cache hit, a
missing file is a throw completion, and otherwise a fresh module is
parsed and cached under the resolved path. -/
def resolveImportedModule (resolve : String → String → String) (fsPaths : List String)
    (st : RealmSt) (refSpec specifier : String) : Comp Nat × RealmSt :=
  let resolved := resolve refSpec specifier
  match entryMatch st resolved with
  | some id => (Comp.ok id, st)
  | none =>
      match st.moduleCache.lookup resolved with
      | some id => (Comp.ok id, st)
      | none =>
          if resolved ∈ fsPaths then
            let p := createSourceTextModule st resolved
            (Comp.ok p.1, { p.2 with moduleCache := (resolved, p.1) :: p.2.moduleCache })
          else (Comp.err (JSValue.errorObj "Error" "Cannot resolve module"), st)

/-- Appending a module cannot create an entry match that was absent,
provided the entry id (when present) points at an existing module. -/
theorem entryMatch_append (st : RealmSt) (resolved : String) (m : ModuleRecord)
    (hwf : ∀ id, st.moduleEntry = some id → id < st.modules.length)
    (h : entryMatch st resolved = none) :
    entryMatch { st with modules := st.modules ++ [m] } resolved = none := by
  unfold entryMatch at h ⊢
  rcases he : st.moduleEntry with _ | id
  · simp only [he]
  · simp only [he] at h ⊢
    have hlt : id < st.modules.length := hwf id he
    have hget : (st.modules ++ [m]).get? id = st.modules.get? id := List.get?_append hlt
    simp only [hget]
    by_cases hc : (st.modules.get? id).map (fun m => m.specifier) = some resolved
    · rw [if_pos hc] at h
      cases h
    · rw [if_neg hc]

/-- Claim C7: the hook is deterministic and idempotent — calling it a
second time with the same `(referencingModule, specifier)` pair returns
the same module id and leaves the realm state exactly as the first call
left it (the first call caches the parsed module under the resolved path,
or returns the entry module when the resolved path names it) — and when
the resolved path does not exist on disk (and is neither the entry nor
cached) the hook returns a throw completion with the state unchanged.
The well-formedness hypothesis says only that the entry id, when present,
names a module that exists. -/
theorem claim_C7 :
    (∀ (resolve : String → String → String) (fsPaths : List String) (st : RealmSt)
      (refSpec specifier : String),
      (∀ id, st.moduleEntry = some id → id < st.modules.length) →
      (resolveImportedModule resolve fsPaths
          (resolveImportedModule resolve fsPaths st refSpec specifier).2 refSpec specifier)
        = resolveImportedModule resolve fsPaths st refSpec specifier) ∧
    (∀ (resolve : String → String → String) (fsPaths : List String) (st : RealmSt)
      (refSpec specifier : String),
      entryMatch st (resolve refSpec specifier) = none →
      st.moduleCache.lookup (resolve refSpec specifier) = none →
      resolve refSpec specifier ∉ fsPaths →
      resolveImportedModule resolve fsPaths st refSpec specifier
        = (Comp.err (JSValue.errorObj "Error" "Cannot resolve module"), st)) := by
  constructor
  · intro resolve fsPaths st refSpec specifier hwf
    rcases hem : entryMatch st (resolve refSpec specifier) with _ | id
    · rcases hca : st.moduleCache.lookup (resolve refSpec specifier) with _ | id2
      · by_cases hfs : resolve refSpec specifier ∈ fsPaths
        · have h1 : resolveImportedModule resolve fsPaths st refSpec specifier
              = (Comp.ok st.modules.length,
                 RealmSt.mk (st.modules ++ [ModuleRecord.mk (resolve refSpec specifier)])
                   ((resolve refSpec specifier, st.modules.length) :: st.moduleCache)
                   st.moduleEntry) := by
            simp only [resolveImportedModule, hem, hca, if_pos hfs, createSourceTextModule]
          rw [h1]
          have hem2 : entryMatch
              (RealmSt.mk (st.modules ++ [ModuleRecord.mk (resolve refSpec specifier)])
                ((resolve refSpec specifier, st.modules.length) :: st.moduleCache)
                st.moduleEntry) (resolve refSpec specifier) = none :=
            entryMatch_append st (resolve refSpec specifier)
              (ModuleRecord.mk (resolve refSpec specifier)) hwf hem
          simp only [resolveImportedModule, hem2]
          simp [List.lookup]
        · have h1 : resolveImportedModule resolve fsPaths st refSpec specifier
              = (Comp.err (JSValue.errorObj "Error" "Cannot resolve module"), st) := by
            simp only [resolveImportedModule, hem, hca, if_neg hfs]
          rw [h1]
          simpa using h1
      · have h1 : resolveImportedModule resolve fsPaths st refSpec specifier
            = (Comp.ok id2, st) := by
          simp only [resolveImportedModule, hem, hca]
        rw [h1]
        simpa using h1
    · have h1 : resolveImportedModule resolve fsPaths st refSpec specifier
          = (Comp.ok id, st) := by
        simp only [resolveImportedModule, hem]
      rw [h1]
      simpa using h1
  · intro resolve fsPaths st refSpec specifier hem hca hfs
    simp only [resolveImportedModule, hem, hca, if_neg hfs]

theorem claim_C7_witness :
    (resolveImportedModule (fun _ s => s) ["/a.mjs"]
        (resolveImportedModule (fun _ s => s) ["/a.mjs"]
          { modules := [], moduleCache := [], moduleEntry := none } "/main.mjs" "/a.mjs").2
        "/main.mjs" "/a.mjs")
      = resolveImportedModule (fun _ s => s) ["/a.mjs"]
          { modules := [], moduleCache := [], moduleEntry := none } "/main.mjs" "/a.mjs" ∧
    resolveImportedModule (fun _ s => s) []
        { modules := [], moduleCache := [], moduleEntry := none } "/main.mjs" "/missing.mjs"
      = (Comp.err (JSValue.errorObj "Error" "Cannot resolve module"),
         { modules := [], moduleCache := [], moduleEntry := none }) :=
  ⟨claim_C7.1 (fun _ s => s) ["/a.mjs"]
     { modules := [], moduleCache := [], moduleEntry := none } "/main.mjs" "/a.mjs"
     (by intro id h; cases h),
   claim_C7.2 (fun _ s => s) []
     { modules := [], moduleCache := [], moduleEntry := none } "/main.mjs" "/missing.mjs"
     rfl rfl (by simp)⟩

/-! ### IsAnonymousFunctionDefinition (claim C10) -/

/-- `IsAnonymousFunctionDefinition`
(src/static-semantics/IsAnonymousFunctionDefinition.mjs), parameterised
by the static semantics `IsFunctionDefinition_Expression` and
`HasName_Expression`, whose sources live outside the provided files.  The
function returns a plain boolean (its type is `Bool`, not a completion),
mirroring the source, which returns the literals `false` and `true`. -/
def IsAnonymousFunctionDefinition {Expr : Type}
    (isFunctionDefinition hasName : Expr → Bool) (expr : Expr) : Bool :=
  if isFunctionDefinition expr = false then false
  else if hasName expr = true then false
  else true

/-- Claim C10: `IsAnonymousFunctionDefinition` returns true exactly when
the expression is a function definition without a name, and when the
expression is not a function definition the result does not depend on
`HasName_Expression` at all (it is never consulted). -/
theorem claim_C10 :
    (∀ (Expr : Type) (fd hn : Expr → Bool) (e : Expr),
      IsAnonymousFunctionDefinition fd hn e = (fd e && !hn e)) ∧
    (∀ (Expr : Type) (fd hn hn2 : Expr → Bool) (e : Expr), fd e = false →
      IsAnonymousFunctionDefinition fd hn e = IsAnonymousFunctionDefinition fd hn2 e) := by
  constructor
  · intro Expr fd hn e
    unfold IsAnonymousFunctionDefinition
    cases hfd : fd e <;> cases hhn : hn e <;> simp
  · intro Expr fd hn hn2 e h
    unfold IsAnonymousFunctionDefinition
    rw [h]
    simp

theorem claim_C10_witness :
    IsAnonymousFunctionDefinition (fun _ : Nat => false) (fun _ => true) 0
      = IsAnonymousFunctionDefinition (fun _ : Nat => false) (fun _ => false) 0 :=
  claim_C10.2 Nat (fun _ => false) (fun _ => true) (fun _ => false) 0 rfl

/-! ### Termination of FlattenIntoArray (claim C8)

A source whose reachable element structure is finite and acyclic is
described by an `ETree`: every array reachable through the elements
appears as a `node` whose children mirror its indexed properties, so no
such array can contain itself.  `FlattenIntoArray` is shown to need no
more recursion budget than the height of that tree: with enough fuel its
fueled embedding never returns the fuel-exhaustion marker. -/

mutual
inductive ETree : Type where
  | leaf (v : JSValue) : ETree
  | node (r : Nat) (cs : EList) : ETree
inductive EList : Type where
  | nil : EList
  | hole (rest : EList) : EList
  | item (t : ETree) (rest : EList) : EList
end

mutual
def heightT : ETree → Nat
  | ETree.leaf _ => 0
  | ETree.node _ cs => heightL cs + 1
def heightL : EList → Nat
  | EList.nil => 0
  | EList.hole rest => heightL rest
  | EList.item t rest => max (heightT t) (heightL rest)
end

def elistLen : EList → Nat
  | EList.nil => 0
  | EList.hole rest => elistLen rest + 1
  | EList.item _ rest => elistLen rest + 1

/-- The value stored at the described index: the leaf value itself, or
the reference of the described array. -/
def rootV : ETree → JSValue
  | ETree.leaf v => v
  | ETree.node r _ => JSValue.obj r

mutual
def refsT : ETree → List Nat
  | ETree.leaf _ => []
  | ETree.node r cs => r :: refsL cs
def refsL : EList → List Nat
  | EList.nil => []
  | EList.hole rest => refsL rest
  | EList.item t rest => refsT t ++ refsL rest
end

def isObjV : JSValue → Bool
  | JSValue.obj _ => true
  | _ => false

def isArrRef (h : List JSObject) (v : JSValue) : Bool :=
  match v with
  | JSValue.obj r => (objAt h r).isArray
  | _ => false

/-- The value `ToLength` computes on a primitive. -/
def toLengthPure (v : JSValue) : Int := jsLenClamp (jsTrunc (toNumPrim v))

theorem ToNumberM_prim (v : JSValue) (h : isObjV v = false) (s : St) :
    ToNumberM v s = (Comp.ok (toNumPrim v), s) := by
  cases v with
  | obj r => cases h
  | undef => rfl
  | null => rfl
  | bool b => rfl
  | num n => rfl
  | str t => rfl
  | errorObj k m => rfl

theorem ToLengthM_prim (v : JSValue) (h : isObjV v = false) (s : St) :
    ToLengthM v s = (Comp.ok (toLengthPure v), s) := by
  have h2 : ToIntegerM v s = (Comp.ok (jsTrunc (toNumPrim v)), s) := by
    unfold ToIntegerM
    rw [bindE_ok (ToNumberM_prim v h s)]
    rfl
  unfold ToLengthM
  rw [bindE_ok h2]
  rfl

/-- How the engine state may differ from the starting heap during a
flatten run: only the target object has been touched, and even the target
keeps its array-exotic flag. -/
def HeapAgree (h0 : List JSObject) (target : Nat) (s : St) : Prop :=
  (∀ r, r ≠ target → objAt s.heap r = objAt h0 r) ∧
  (objAt s.heap target).isArray = (objAt h0 target).isArray

mutual
inductive TreeOk (h : List JSObject) : ETree → Prop where
  | leaf (v : JSValue) (hna : isArrRef h v = false) : TreeOk h (ETree.leaf v)
  | node (r : Nat) (cs : EList) (lv : JSValue) (w : Bool)
      (hArr : (objAt h r).isArray = true)
      (hLen : (objAt h r).props.lookup "length" = some (PropDesc.data lv w))
      (hPrim : isObjV lv = false)
      (hLenVal : toLengthPure lv = (elistLen cs : Int))
      (hcs : ListOk h r 0 cs) : TreeOk h (ETree.node r cs)
inductive ListOk (h : List JSObject) : Nat → Nat → EList → Prop where
  | nil (r i : Nat) : ListOk h r i EList.nil
  | hole (r i : Nat) (rest : EList)
      (hmiss : (objAt h r).props.lookup (intKey (i : Int)) = none)
      (hrest : ListOk h r (i + 1) rest) : ListOk h r i (EList.hole rest)
  | item (r i : Nat) (t : ETree) (rest : EList) (w : Bool)
      (hhit : (objAt h r).props.lookup (intKey (i : Int)) = some (PropDesc.data (rootV t) w))
      (ht : TreeOk h t)
      (hrest : ListOk h r (i + 1) rest) : ListOk h r i (EList.item t rest)
end

theorem objAt_set_ne (l : List JSObject) (i j : Nat) (o : JSObject) (h : i ≠ j) :
    objAt (l.set i o) j = objAt l j := by
  unfold objAt
  rw [List.get?_set_ne o l h]

theorem objAt_set_self_isArray (l : List JSObject) (i : Nat) (o : JSObject)
    (h : o.isArray = (objAt l i).isArray) :
    (objAt (l.set i o) i).isArray = (objAt l i).isArray := by
  unfold objAt
  rw [List.get?_set_eq]
  rcases hg : l.get? i with _ | x
  · simp [hg]
  · simp [hg]
    rw [h]
    unfold objAt
    rw [hg]
    rfl

/-- `CreateDataPropertyOrThrow` on the target preserves the heap
agreement: only the target is written, and a property write keeps the
array flag. -/
theorem CDP_heapAgree (h0 : List JSObject) (target : Nat) (k : String) (v : JSValue)
    (s : St) (hinv : HeapAgree h0 target s) :
    HeapAgree h0 target ((CreateDataPropertyOrThrowM target k v s).2) := by
  have step : ∀ o2 : JSObject, o2.isArray = (objAt s.heap target).isArray →
      HeapAgree h0 target { heap := s.heap.set target o2, events := Ev.defProp target k :: s.events } := by
    intro o2 ho2
    constructor
    · intro r hr
      have := objAt_set_ne s.heap target r o2 (fun hc => hr hc.symm)
      rw [this]
      exact hinv.1 r hr
    · have := objAt_set_self_isArray s.heap target o2 ho2
      rw [this]
      exact hinv.2
  unfold CreateDataPropertyOrThrowM
  rcases hm : (if (objAt s.heap target).isArray then keyToIndex k else none) with _ | i
  · simp only [hm]
    exact step _ rfl
  · simp only [hm]
    by_cases h1 : (i : Int) ≥ lengthIntOf (objAt s.heap target)
    · rw [if_pos h1]
      by_cases h2 : lengthWritable (objAt s.heap target) = true
      · rw [if_pos h2]
        exact step _ rfl
      · rw [if_neg h2]
        exact hinv
    · rw [if_neg h1]
      exact step _ rfl

theorem GetM_data {r : Nat} {k : String} {s : St} {v : JSValue} {w : Bool}
    (h : (objAt s.heap r).props.lookup k = some (PropDesc.data v w)) :
    GetM r k s = (Comp.ok v, s) := by
  unfold GetM
  rw [h]

theorem HasPropertyM_val (r : Nat) (k : String) (s : St) :
    HasPropertyM r k s = (Comp.ok (((objAt s.heap r).props.lookup k).isSome), s) := rfl

theorem IsArrayM_val (v : JSValue) (s : St) : IsArrayM v s = (Comp.ok (isArraySt s v), s) := rfl

theorem bindE_pureE {α β : Type} (a : α) (f : α → EngM β) (s : St) :
    bindE (pureE a) f s = f a s := rfl

/-- One activation of the flatten loop terminates and touches only the
target, provided the source segment is described by a tree list and every
descent (`descend`) behaves likewise on described subtrees of height at
most `B`. -/
theorem flatLoop_term (h0 : List JSObject) (target : Nat) (B : Nat)
    (descend : Nat → Nat → Int → JSNum → EngM (Option Int))
    (HD : ∀ (r2 : Nat) (cs2 : EList) (ti2 : Int) (d2 : JSNum) (s : St)
      (res : Comp (Option Int)) (s' : St),
      TreeOk h0 (ETree.node r2 cs2) →
      (∀ q, q ∈ refsT (ETree.node r2 cs2) → q ≠ target) →
      heightT (ETree.node r2 cs2) ≤ B →
      HeapAgree h0 target s →
      descend (elistLen cs2) r2 ti2 d2 s = (res, s') →
      res ≠ Comp.ok none ∧ HeapAgree h0 target s') :
    ∀ (cs : EList) (src i : Nat) (ti : Int) (depth : JSNum) (s : St)
      (res : Comp (Option Int)) (s' : St),
    ListOk h0 src i cs →
    (∀ r, r ∈ refsL cs → r ≠ target) →
    src ≠ target →
    heightL cs ≤ B →
    HeapAgree h0 target s →
    flatLoop target descend none (elistLen cs) src (i : Int) ti depth s = (res, s') →
    res ≠ Comp.ok none ∧ HeapAgree h0 target s' := by
  have key : ∀ (n : Nat) (cs : EList), elistLen cs ≤ n →
      ∀ (src i : Nat) (ti : Int) (depth : JSNum) (s : St)
        (res : Comp (Option Int)) (s' : St),
      ListOk h0 src i cs →
      (∀ r, r ∈ refsL cs → r ≠ target) →
      src ≠ target →
      heightL cs ≤ B →
      HeapAgree h0 target s →
      flatLoop target descend none (elistLen cs) src (i : Int) ti depth s = (res, s') →
      res ≠ Comp.ok none ∧ HeapAgree h0 target s' := by
    intro n
    induction n with
    | zero =>
        intro cs hle src i ti depth s res s' hok hrefs hsrc hh hinv h
        cases cs with
        | nil =>
            simp only [elistLen, flatLoop, pureE] at h
            obtain ⟨h1, h2⟩ := pairEq h
            subst h2
            rw [h1]
            exact ⟨by simp, hinv⟩
        | hole rest => simp [elistLen] at hle
        | item t rest => simp [elistLen] at hle
    | succ n ihn =>
        intro cs hle src i ti depth s res s' hok hrefs hsrc hh hinv h
        cases cs with
        | nil =>
            simp only [elistLen, flatLoop, pureE] at h
            obtain ⟨h1, h2⟩ := pairEq h
            subst h2
            rw [h1]
            exact ⟨by simp, hinv⟩
        | hole rest =>
            cases hok with
            | hole _ _ _ hmiss hrest =>
                have hlook : (objAt s.heap src).props.lookup (intKey (i : Int)) = none := by
                  rw [hinv.1 src hsrc]
                  exact hmiss
                have hHas : HasPropertyM src (intKey (i : Int)) s = (Comp.ok false, s) := by
                  rw [HasPropertyM_val, hlook]
                  rfl
                simp only [elistLen, flatLoop, bind_def, bindE_ok hHas, Bool.false_eq_true,
                  if_false] at h
                have hcast : ((i : Int) + 1) = ((i + 1 : Nat) : Int) := by push_cast; ring
                rw [hcast] at h
                refine ihn rest (by simpa [elistLen] using hle) src (i + 1) ti depth s res s'
                  hrest ?_ hsrc (by simpa [heightL] using hh) hinv h
                intro r hr
                exact hrefs r hr
        | item t rest =>
            cases hok with
            | item _ _ _ _ w hhit ht hrest =>
                have hlook : (objAt s.heap src).props.lookup (intKey (i : Int))
                    = some (PropDesc.data (rootV t) w) := by
                  rw [hinv.1 src hsrc]
                  exact hhit
                have hHas : HasPropertyM src (intKey (i : Int)) s = (Comp.ok true, s) := by
                  rw [HasPropertyM_val, hlook]
                  rfl
                have hGet : GetM src (intKey (i : Int)) s = (Comp.ok (rootV t), s) :=
                  GetM_data hlook
                have hcast : ((i : Int) + 1) = ((i + 1 : Nat) : Int) := by push_cast; ring
                have hrestLen : elistLen rest ≤ n := by simpa [elistLen] using hle
                have hrestH : heightL rest ≤ B :=
                  le_trans (le_max_right (heightT t) (heightL rest)) (by simpa [heightL] using hh)
                have hrestRefs : ∀ r, r ∈ refsL rest → r ≠ target := by
                  intro r hr
                  refine hrefs r ?_
                  simp only [refsL, List.mem_append]
                  exact Or.inr hr
                simp only [elistLen, flatLoop, bind_def, bindE_ok hHas, if_true,
                  bindE_ok hGet, bindE_pureE] at h
                by_cases hd : jsGtZero depth = true
                · rw [if_pos hd] at h
                  rw [bindE_ok (IsArrayM_val (rootV t) s)] at h
                  cases t with
                  | leaf v =>
                      have hna : isArrRef h0 v = false := by
                        cases ht with
                        | leaf _ hna => exact hna
                      have hvs : isArraySt s (rootV (ETree.leaf v)) = false := by
                        cases v with
                        | obj rr =>
                            simp only [rootV, isArraySt]
                            simp only [isArrRef] at hna
                            by_cases hrt : rr = target
                            · rw [hrt, hinv.2]
                              rw [hrt] at hna
                              exact hna
                            · rw [hinv.1 rr hrt]
                              exact hna
                        | undef => rfl
                        | null => rfl
                        | bool b => rfl
                        | num m => rfl
                        | str t2 => rfl
                        | errorObj k m => rfl
                      rw [hvs] at h
                      simp only [Bool.false_eq_true, if_false] at h
                      by_cases hti : ti ≥ maxSafe
                      · rw [if_pos hti] at h
                        simp only [throwTE, throwE] at h
                        obtain ⟨h1, h2⟩ := pairEq h
                        subst h2
                        rw [h1]
                        exact ⟨by simp, hinv⟩
                      · rw [if_neg hti] at h
                        rcases hc : CreateDataPropertyOrThrowM target (intKey ti)
                            (rootV (ETree.leaf v)) s with ⟨cc, sc⟩
                        have hsc : HeapAgree h0 target sc := by
                          have := CDP_heapAgree h0 target (intKey ti) (rootV (ETree.leaf v)) s hinv
                          rw [hc] at this
                          exact this
                        cases cc with
                        | err e =>
                            rw [bindE_err hc] at h
                            obtain ⟨h1, h2⟩ := pairEq h
                            subst h2
                            rw [h1]
                            exact ⟨by simp, hsc⟩
                        | ok u =>
                            rw [bindE_ok hc] at h
                            rw [hcast] at h
                            exact ihn rest hrestLen src (i + 1) (ti + 1) depth sc res s'
                              hrest hrestRefs hsrc hrestH hsc h
                  | node r2 cs2 =>
                      rcases ht with _ | ⟨_, _, lv, w2, hArr, hLen, hPrim, hLenVal, hcs2⟩
                      have hne : r2 ≠ target := by
                        refine hrefs r2 ?_
                        simp [refsL, refsT]
                      have hvs : isArraySt s (rootV (ETree.node r2 cs2)) = true := by
                        simp only [rootV, isArraySt]
                        rw [hinv.1 r2 hne]
                        exact hArr
                      rw [hvs] at h
                      simp only [if_true, rootV] at h
                      have hLenS : (objAt s.heap r2).props.lookup "length"
                          = some (PropDesc.data lv w2) := by
                        rw [hinv.1 r2 hne]
                        exact hLen
                      have hGet2 : GetM r2 "length" s = (Comp.ok lv, s) := GetM_data hLenS
                      have hLen2 : ToLengthM lv s = (Comp.ok (toLengthPure lv), s) :=
                        ToLengthM_prim lv hPrim s
                      rw [bindE_ok hGet2, bindE_ok hLen2] at h
                      have htn : (toLengthPure lv).toNat = elistLen cs2 := by
                        rw [hLenVal]
                        simp
                      rw [htn] at h
                      rcases hdc : descend (elistLen cs2) r2 ti (jsSub1 depth) s with ⟨cd, sd⟩
                      have hHD := HD r2 cs2 ti (jsSub1 depth) s cd sd
                        (TreeOk.node r2 cs2 lv w2 hArr hLen hPrim hLenVal hcs2)
                        (by
                          intro q hq
                          refine hrefs q ?_
                          simp only [refsL, List.mem_append]
                          exact Or.inl hq)
                        (le_trans (le_max_left (heightT (ETree.node r2 cs2)) (heightL rest))
                          (by simpa [heightL] using hh))
                        hinv hdc
                      cases cd with
                      | err e =>
                          rw [bindE_err hdc] at h
                          obtain ⟨h1, h2⟩ := pairEq h
                          subst h2
                          rw [h1]
                          exact ⟨by simp, hHD.2⟩
                      | ok rr =>
                          cases rr with
                          | none => exact absurd rfl hHD.1
                          | some ti2 =>
                              rw [bindE_ok hdc] at h
                              simp only [] at h
                              rw [hcast] at h
                              exact ihn rest hrestLen src (i + 1) ti2 depth sd res s'
                                hrest hrestRefs hsrc hrestH hHD.2 h
                · rw [if_neg hd] at h
                  rw [bindE_pureE] at h
                  simp only [Bool.false_eq_true, if_false] at h
                  by_cases hti : ti ≥ maxSafe
                  · rw [if_pos hti] at h
                    simp only [throwTE, throwE] at h
                    obtain ⟨h1, h2⟩ := pairEq h
                    subst h2
                    rw [h1]
                    exact ⟨by simp, hinv⟩
                  · rw [if_neg hti] at h
                    rcases hc : CreateDataPropertyOrThrowM target (intKey ti) (rootV t) s
                        with ⟨cc, sc⟩
                    have hsc : HeapAgree h0 target sc := by
                      have := CDP_heapAgree h0 target (intKey ti) (rootV t) s hinv
                      rw [hc] at this
                      exact this
                    cases cc with
                    | err e =>
                        rw [bindE_err hc] at h
                        obtain ⟨h1, h2⟩ := pairEq h
                        subst h2
                        rw [h1]
                        exact ⟨by simp, hsc⟩
                    | ok u =>
                        rw [bindE_ok hc] at h
                        rw [hcast] at h
                        exact ihn rest hrestLen src (i + 1) (ti + 1) depth sc res s'
                          hrest hrestRefs hsrc hrestH hsc h
  intro cs src i ti depth s res s' hok hrefs hsrc hh hinv h
  exact key (elistLen cs) cs (le_refl _) src i ti depth s res s' hok hrefs hsrc hh hinv h

/-- `FlattenIntoArray` with a fuel of at least the height of the source's
element tree never exhausts its budget: it returns a genuine completion
(normal or throw), and only ever writes to the target. -/
theorem flattenGo_term (h0 : List JSObject) (target : Nat) :
    ∀ (fuel : Nat) (cs : EList) (src i : Nat) (ti : Int) (depth : JSNum) (s : St)
      (res : Comp (Option Int)) (s' : St),
    ListOk h0 src i cs →
    (∀ r, r ∈ refsL cs → r ≠ target) →
    src ≠ target →
    heightL cs ≤ fuel →
    HeapAgree h0 target s →
    flattenGo target fuel none (elistLen cs) src (i : Int) ti depth s = (res, s') →
    res ≠ Comp.ok none ∧ HeapAgree h0 target s' := by
  intro fuel
  induction fuel using Nat.strong_induction_on with
  | _ fuel IH =>
    intro cs src i ti depth s res s' hok hrefs hsrc hh hinv h
    cases fuel with
    | zero =>
        simp only [flattenGo] at h
        refine flatLoop_term h0 target 0 _ ?_ cs src i ti depth s res s' hok hrefs hsrc hh hinv h
        intro r2 cs2 ti2 d2 s0 res0 s0' ht0 href0 hht0 hinv0 hd0
        have : heightT (ETree.node r2 cs2) = heightL cs2 + 1 := rfl
        omega
    | succ fuel' =>
        simp only [flattenGo] at h
        refine flatLoop_term h0 target (fuel' + 1) _ ?_ cs src i ti depth s res s'
          hok hrefs hsrc hh hinv h
        intro r2 cs2 ti2 d2 s0 res0 s0' ht0 href0 hht0 hinv0 hd0
        rcases ht0 with _ | ⟨_, _, lv, w2, hArr, hLen, hPrim, hLenVal, hcs2⟩
        have hne : r2 ≠ target := href0 r2 (by simp [refsT])
        have hht2 : heightL cs2 ≤ fuel' := by
          have : heightT (ETree.node r2 cs2) = heightL cs2 + 1 := rfl
          omega
        refine IH fuel' (Nat.lt_succ_self fuel') cs2 r2 0 ti2 d2 s0 res0 s0' hcs2 ?_ hne hht2
          hinv0 ?_
        · intro q hq
          refine href0 q ?_
          simp only [refsT, List.mem_cons]
          exact Or.inr hq
        · simpa using hd0

/-- Claim C8: `FlattenIntoArray` terminates whenever the source's
reachable element structure is finite and acyclic — stated as: whenever
that structure is described by a finite tree (`TreeOk`, which any
acyclic, finite element structure of data properties admits and a
self-containing array cannot), the fueled embedding with fuel at least
the tree's height never returns the fuel-exhaustion marker `none`, for
every depth argument including Infinity and every starting target index.
The outer loop runs down the remaining source indices and every recursive
call descends to a strictly lower subtree, consuming one unit of fuel. -/
theorem claim_C8 :
    ∀ (st : St) (src : Nat) (cs : EList) (target : Nat) (start : Int) (depth : JSNum)
      (fuel : Nat),
    TreeOk st.heap (ETree.node src cs) →
    (∀ r, r ∈ refsT (ETree.node src cs) → r ≠ target) →
    heightL cs ≤ fuel →
    (flattenGo target fuel none (elistLen cs) src 0 start depth st).1 ≠ Comp.ok none := by
  intro st src cs target start depth fuel htree hrefs hh
  rcases htree with _ | ⟨_, _, lv, w, hArr, hLen, hPrim, hLenVal, hcs⟩
  have hsrc : src ≠ target := hrefs src (by simp [refsT])
  rcases hres : flattenGo target fuel none (elistLen cs) src 0 start depth st with ⟨res, s'⟩
  have hinv : HeapAgree st.heap target st := ⟨fun r _ => rfl, rfl⟩
  have h0 : flattenGo target fuel none (elistLen cs) src ((0 : Nat) : Int) start depth st
      = (res, s') := by simpa using hres
  have hmain := flattenGo_term st.heap target fuel cs src 0 start depth st res s' hcs
    (by
      intro r hr
      refine hrefs r ?_
      simp only [refsT, List.mem_cons]
      exact Or.inr hr)
    hsrc hh hinv h0
  exact hmain.1

/-- The heap `[[1]]` nested inside `[[ [1] ]]`: reference 0 is `[1]`,
reference 1 is `[[1]]`; the flatten target 2 is fresh. -/
def wNest : St :=
  { heap := [arrOf [JSValue.num (JSNum.int 1)], arrOf [JSValue.obj 0]], events := [] }

def wTreeInner : EList := EList.item (ETree.leaf (JSValue.num (JSNum.int 1))) EList.nil

def wTree : EList := EList.item (ETree.node 0 wTreeInner) EList.nil

theorem claim_C8_witness :
    (flattenGo 2 1 none (elistLen wTree) 1 0 0 JSNum.posInf wNest).1 ≠ Comp.ok none :=
  claim_C8 wNest 1 wTree 2 0 JSNum.posInf 1
    (TreeOk.node 1 wTree (JSValue.num (JSNum.int 1)) true (by decide) (by decide) rfl
      (by decide)
      (ListOk.item 1 0 (ETree.node 0 wTreeInner) EList.nil true (by decide)
        (TreeOk.node 0 wTreeInner (JSValue.num (JSNum.int 1)) true (by decide) (by decide)
          rfl (by decide)
          (ListOk.item 0 0 (ETree.leaf (JSValue.num (JSNum.int 1))) EList.nil true
            (by decide) (TreeOk.leaf (JSValue.num (JSNum.int 1)) (by decide))
            (ListOk.nil 0 1)))
        (ListOk.nil 1 1)))
    (by decide) (by decide)

end E262
